import Mathlib

/-!
Shallow embedding of the glvi/cbor_rust incremental CBOR decoder.

The definitions below are translated from the Rust sources:
  * src/token.rs       — tokens and token kinds
  * src/value.rs       — the value model and TryFrom<Token> for Value
  * src/scanner.rs     — the byte-to-token scanner state machine
  * src/parser/…       — the LL(1) and LR(1) parsers with their stacks

Machine integers (u8/u64/usize) are modelled as Nat; the target platform is
64-bit, so usize::MAX = u64::MAX = 2^64 - 1.  Rust panics (todo!, unwrap,
assert!, explicit panic!) are modelled by a dedicated `panic` outcome.
-/

set_option autoImplicit false
set_option maxRecDepth 4000
set_option maxHeartbeats 1000000

namespace Cbor

/-- usize::MAX on the 64-bit target platform (= u64::MAX). -/
def usizeMax : Nat := 2 ^ 64 - 1

/-- 2^64, the modulus of u64 arithmetic. -/
def u64Mod : Nat := 2 ^ 64

/-! ## Token kinds (src/token.rs, enum Kind) -/

/-- Numerical representation of kinds of token (src/token.rs). -/
inductive Kind where
  | uint
  | nint
  | bstrX
  | bstr
  | tstrX
  | tstr
  | arrayX
  | array
  | mapX
  | map
  | tag
  | simple
  | float
  | brk
deriving DecidableEq

/-! ## Tokens (src/token.rs, enum Token) -/

/-- Structured representation of a token (src/token.rs).  `brk` stands for
the Rust variant `Break`. -/
inductive Token where
  | uint (n : Nat)
  | nint (n : Nat)
  | bstrX
  | bstr (bytes : List Nat)
  | tstrX
  | tstr (bytes : List Nat)
  | arrayX
  | array (n : Nat)
  | mapX
  | map (n : Nat)
  | tag (n : Nat)
  | simple (n : Nat)
  | float (n : Nat)
  | brk
deriving DecidableEq

/-- Token::kind (src/token.rs). -/
def Token.kind : Token → Kind
  | .uint _ => .uint
  | .nint _ => .nint
  | .bstrX => .bstrX
  | .bstr _ => .bstr
  | .tstrX => .tstrX
  | .tstr _ => .tstr
  | .arrayX => .arrayX
  | .array _ => .array
  | .mapX => .mapX
  | .map _ => .map
  | .tag _ => .tag
  | .simple _ => .simple
  | .float _ => .float
  | .brk => .brk

/-! ## UTF-8 validity

`String::from_utf8` in Rust succeeds exactly on RFC 3629 valid UTF-8.
`utf8Cont b` checks that `b` is a continuation byte. -/

/-- One step of RFC 3629 UTF-8 validation (the decoding automaton of Rust's
`String::from_utf8`): `pending` continuation bytes are still expected, the
next of which must lie in `lo..=hi`; subsequent ones in `0x80..=0xBF`. -/
def utf8Run : Nat → Nat → Nat → List Nat → Bool
  | pending, _, _, [] => decide (pending = 0)
  | 0, _, _, b :: rest =>
      if b ≤ 0x7F then utf8Run 0 0 0 rest
      else if 0xC2 ≤ b ∧ b ≤ 0xDF then utf8Run 1 0x80 0xBF rest
      else if b = 0xE0 then utf8Run 2 0xA0 0xBF rest
      else if 0xE1 ≤ b ∧ b ≤ 0xEC then utf8Run 2 0x80 0xBF rest
      else if b = 0xED then utf8Run 2 0x80 0x9F rest
      else if 0xEE ≤ b ∧ b ≤ 0xEF then utf8Run 2 0x80 0xBF rest
      else if b = 0xF0 then utf8Run 3 0x90 0xBF rest
      else if 0xF1 ≤ b ∧ b ≤ 0xF3 then utf8Run 3 0x80 0xBF rest
      else if b = 0xF4 then utf8Run 3 0x80 0x8F rest
      else false
  | pending + 1, lo, hi, b :: rest =>
      decide (lo ≤ b ∧ b ≤ hi) && utf8Run pending 0x80 0xBF rest

/-- RFC 3629 UTF-8 validity of a byte sequence, as enforced by Rust's
`String::from_utf8`. -/
def utf8Valid (l : List Nat) : Bool := utf8Run 0 0 0 l

/-! ## Values (src/value.rs, enum Value) -/

/-- CBOR value (src/value.rs). -/
inductive Value where
  | uint (n : Nat)
  | nint (n : Nat)
  | float (n : Nat)
  | bstr (bytes : List Nat)
  | tstr (bytes : List Nat)
  | simple (n : Nat)
  | tag (t : Nat) (v : Value)
  | array (vs : List Value)
  | map (entries : List (Value × Value))

/-- Indicates that constructing a value from a token failed
(src/value.rs, TryFromTokenError). -/
structure TryFromTokenError where
  kind : Kind
deriving DecidableEq

/-- Value::as_tstr (src/value.rs): on a Tstr it decodes the bytes via
`String::from_utf8(bytes).unwrap()`, panicking on invalid UTF-8 (outer
`none`); on other variants it returns Rust `None` (inner `none`).  The
resulting String is represented by its UTF-8 byte list. -/
def Value.asTstr : Value → Option (Option (List Nat))
  | .tstr bytes => if utf8Valid bytes then some (some bytes) else none
  | _ => some none

/-- TryFrom<token::Token> for Value (src/value.rs).  The outer `none`
models the panic of the `Float(_) => todo!()` arm; `Except.error` models
the four undefined conversions. -/
def Value.tryFromToken : Token → Option (Except TryFromTokenError Value)
  | tok@(.array _) => some (.error ⟨tok.kind⟩)
  | tok@(.map _) => some (.error ⟨tok.kind⟩)
  | tok@(.tag _) => some (.error ⟨tok.kind⟩)
  | tok@.brk => some (.error ⟨tok.kind⟩)
  | .uint n => some (.ok (.uint n))
  | .nint n => some (.ok (.nint n))
  | .bstrX => some (.ok (.bstr []))
  | .bstr bytes => some (.ok (.bstr bytes))
  | .tstrX => some (.ok (.tstr []))
  | .tstr bytes => some (.ok (.tstr bytes))
  | .arrayX => some (.ok (.array []))
  | .mapX => some (.ok (.map []))
  | .simple s => some (.ok (.simple s))
  | .float _ => none

/-! ## Scanner (src/scanner.rs)

The scanner consumes one byte at a time.  Rust panics (the `assert!` on
`pending`, the `try_into().unwrap()` for `Simple` arguments, and the
`panic!` in the payload-completion arm) are modelled by `none`. -/

namespace Scanner

/-- Scanner errors (src/scanner/error.rs). -/
inductive Error where
  | unexpectedEof
  | unexpectedHead (byte : Nat)
  | excessive (n : Nat)
deriving DecidableEq

/-- Scanner state (src/scanner.rs, enum ScanState). -/
inductive ScanState where
  | head
  | arg (kind : Kind) (arg : Nat) (pending : Nat)
  | pay (kind : Kind) (bytes : List Nat) (pending : Nat)
deriving DecidableEq

/-- Result of consuming one byte (src/scanner.rs, enum ScanResult). -/
inductive ScanResult where
  | incomplete (s : ScanState)
  | complete (s : ScanState) (t : Token)
  | error (e : Error)
deriving DecidableEq

/-- src/scanner.rs, fn token.  `none` models the panic of
`argument.try_into().unwrap()` when a Simple argument does not fit u8. -/
def token (kind : Kind) (argument : Nat) (payload : List Nat) :
    Option ScanResult :=
  match kind with
  | .uint => some (.complete .head (.uint argument))
  | .nint => some (.complete .head (.nint argument))
  | .bstrX => some (.complete .head .bstrX)
  | .bstr => some (.complete .head (.bstr payload))
  | .tstrX => some (.complete .head .tstrX)
  | .tstr => some (.complete .head (.tstr payload))
  | .arrayX => some (.complete .head .arrayX)
  | .array => some (.complete .head (.array argument))
  | .mapX => some (.complete .head .mapX)
  | .map => some (.complete .head (.map argument))
  | .tag => some (.complete .head (.tag argument))
  | .simple =>
    if argument < 256 then some (.complete .head (.simple argument))
    else none
  | .float => some (.complete .head (.float argument))
  | .brk => some (.complete .head .brk)

/-- src/scanner.rs, fn gather_argument.  `count` is the number of argument
bytes still to read (1, 2, 4 or 8 at the call sites). -/
def gatherArgument (kind : Kind) (count : Nat) : Option ScanResult :=
  some (.incomplete (.arg kind 0 count))

/-- src/scanner.rs, fn gather_bytes.  `count.try_into()` from u64 to usize
fails exactly when the count exceeds usize::MAX. -/
def gatherBytes (kind : Kind) (count : Nat) : Option ScanResult :=
  if count ≤ usizeMax then
    some (.incomplete (.pay kind [] count))
  else
    some (.error (.excessive count))

/-- src/scanner.rs, fn consume (the free function driving the state
machine).  Bytes are u8 values (< 256). -/
def consume (state : ScanState) (byte : Nat) : Option ScanResult :=
  match state with
  | .head =>
    -- UINT
    if byte ≤ 0x17 then token .uint byte []
    else if byte = 0x18 then gatherArgument .uint 1
    else if byte = 0x19 then gatherArgument .uint 2
    else if byte = 0x1a then gatherArgument .uint 4
    else if byte = 0x1b then gatherArgument .uint 8
    -- NINT
    else if 0x20 ≤ byte ∧ byte ≤ 0x37 then token .nint (byte - 0x20) []
    else if byte = 0x38 then gatherArgument .nint 1
    else if byte = 0x39 then gatherArgument .nint 2
    else if byte = 0x3a then gatherArgument .nint 4
    else if byte = 0x3b then gatherArgument .nint 8
    -- BSTR
    else if byte = 0x40 then token .bstr 0 []
    else if 0x41 ≤ byte ∧ byte ≤ 0x57 then gatherBytes .bstr (byte - 0x40)
    else if byte = 0x58 then gatherArgument .bstr 1
    else if byte = 0x59 then gatherArgument .bstr 2
    else if byte = 0x5a then gatherArgument .bstr 4
    else if byte = 0x5b then gatherArgument .bstr 8
    else if byte = 0x5f then token .bstrX 0xff []
    -- TSTR
    else if byte = 0x60 then token .tstr 0 []
    else if 0x61 ≤ byte ∧ byte ≤ 0x77 then gatherBytes .tstr (byte - 0x60)
    else if byte = 0x78 then gatherArgument .tstr 1
    else if byte = 0x79 then gatherArgument .tstr 2
    else if byte = 0x7a then gatherArgument .tstr 4
    else if byte = 0x7b then gatherArgument .tstr 8
    else if byte = 0x7f then token .tstrX 0xff []
    -- ARRAY
    else if byte = 0x80 then token .array 0 []
    else if 0x81 ≤ byte ∧ byte ≤ 0x97 then token .array (byte - 0x80) []
    else if byte = 0x98 then gatherArgument .array 1
    else if byte = 0x99 then gatherArgument .array 2
    else if byte = 0x9a then gatherArgument .array 4
    else if byte = 0x9b then gatherArgument .array 8
    else if byte = 0x9f then token .arrayX 0xff []
    -- MAP
    else if byte = 0xa0 then token .map 0 []
    else if 0xa1 ≤ byte ∧ byte ≤ 0xb7 then token .map (byte - 0xa0) []
    else if byte = 0xb8 then gatherArgument .map 1
    else if byte = 0xb9 then gatherArgument .map 2
    else if byte = 0xba then gatherArgument .map 4
    else if byte = 0xbb then gatherArgument .map 8
    else if byte = 0xbf then token .mapX 0xff []
    -- TAGGED
    else if 0xc0 ≤ byte ∧ byte ≤ 0xd7 then token .tag (byte - 0xc0) []
    else if byte = 0xd8 then gatherArgument .tag 1
    else if byte = 0xd9 then gatherArgument .tag 2
    else if byte = 0xda then gatherArgument .tag 4
    else if byte = 0xdb then gatherArgument .tag 8
    -- SIMPLE
    else if 0xe0 ≤ byte ∧ byte ≤ 0xf7 then token .simple (byte - 0xe0) []
    else if byte = 0xf8 then gatherArgument .simple 1
    -- FLOAT
    else if byte = 0xf9 then gatherArgument .float 2
    else if byte = 0xfa then gatherArgument .float 4
    else if byte = 0xfb then gatherArgument .float 8
    -- BREAK
    else if byte = 0xff then token .brk 0xff []
    -- Unexpected cases
    else some (.error (.unexpectedHead byte))
  | .arg kind arg pending =>
    -- assert!(pending > 0)
    if pending = 0 then none
    else
      -- arg <<= 8; arg |= byte  (u64 shift discards overflowing bits)
      let arg1 := (arg * 256 % u64Mod) + byte
      let pending1 := pending - 1
      if 0 < pending1 then
        some (.incomplete (.arg kind arg1 pending1))
      else if arg1 = 0 then
        match kind with
        | .bstr => token .bstr 0 []
        | .tstr => token .tstr 0 []
        | .array => token .array 0 []
        | .map => token .map 0 []
        | _ => token kind arg1 []
      else
        match kind with
        | .bstr => gatherBytes .bstr arg1
        | .tstr => gatherBytes .tstr arg1
        | _ => token kind arg1 []
  | .pay kind bytes pending =>
    -- assert!(pending > 0)
    if pending = 0 then none
    else
      let bytes1 := bytes ++ [byte]
      let pending1 := pending - 1
      if 0 < pending1 then
        some (.incomplete (.pay kind bytes1 pending1))
      else
        match kind with
        | .bstr => token .bstr bytes1.length bytes1
        | .tstr => token .tstr bytes1.length bytes1
        | _ => none   -- panic!("Gathering bytes for {:?}", kind)

/-- Well-formedness of scanner states reachable from `Head`:
the pending count is positive, a `Simple` argument gathers exactly one
byte starting from accumulator 0, and payloads are only gathered for
`Bstr`/`Tstr`. -/
def WF : ScanState → Prop
  | .head => True
  | .arg kind arg pending =>
    0 < pending ∧ pending ≤ 8 ∧ (kind = .simple → pending = 1 ∧ arg = 0)
  | .pay kind _ pending => 0 < pending ∧ (kind = .bstr ∨ kind = .tstr)

/-- The consume result is no panic, and successor states are again
well-formed. -/
def ResultWF : Option ScanResult → Prop
  | some (.incomplete s) => WF s
  | some (.complete s _) => WF s
  | some (.error _) => True
  | none => False

end Scanner

/-! ## Parser common parts (src/parser.rs, src/parser/grammar.rs,
src/parser/error.rs) -/

namespace Parser

/-- Non-terminal symbols of the CBOR grammar
(src/parser/grammar.rs, enum NonTerm). -/
inductive NonTerm where
  | array
  | arrayXSeq
  | bstr
  | bstrXSeq
  | map
  | mapXSeq
  | tag
  | tstr
  | tstrXSeq
  | value
deriving DecidableEq

/-- Parser errors (src/parser/error.rs, enum Error). -/
inductive Error where
  | invalid
  | incomplete
  | unexpectedT (expected : List Kind) (actual : Token)
  | unexpectedNT (expected : List NonTerm) (actual : NonTerm)
  | unexpected (msg : String)
  | trailingInput
  | scanner (e : Scanner.Error)
  | insufficientStackSize
  | internal
  | todoErr (msg : String)
deriving DecidableEq

end Parser

/-- Outcome of Parser::consume: `ok p out` is Rust `Ok(out)` together with
the updated parser state `p`; `err` is `Err(e)`; `panic` is a Rust panic. -/
inductive POut (σ : Type) where
  | panic
  | err (e : Parser.Error)
  | ok (p : σ) (out : Option Value)

/-- Feed a token list to a parser one token at a time, returning the
outcome of the last consume call (errors and panics abort the run, as the
callers in the repository stop consuming on the first Err). -/
def runFrom {σ : Type} (f : σ → Token → POut σ) : σ → Option Value →
    List Token → POut σ
  | p, o, [] => .ok p o
  | p, _, t :: ts =>
    match f p t with
    | .panic => .panic
    | .err e => .err e
    | .ok p1 o1 => runFrom f p1 o1 ts

/-- Feed a token list to a fresh parser state. -/
def run {σ : Type} (f : σ → Token → POut σ) (p : σ) (ts : List Token) :
    POut σ :=
  runFrom f p none ts

/-! ## LL(1) parser (src/parser/ll.rs with context_stack.rs and
value_stack.rs)

The Rust context stack stores deferred semantic actions as named closures;
the seven closures created in ll.rs are modelled by the tags of
`ActionTag`, interpreted by `applyAction` (src/parser/ll/value_stack.rs).
The recursion of `do_consume`/`do_consume_` is not structural; it is
modelled with a fuel parameter that dominates its depth (one frame per
popped context entry plus at most four grammar expansions). -/

namespace LL

open Parser

/-- The semantic actions pushed by ll.rs (the closures built by
array_collect, array_push, bstr_append, map_collect, map_push, tag_set,
tstr_append). -/
inductive ActionTag where
  | arrayCollect (n : Nat)
  | arrayPush
  | bstrAppend
  | mapCollect (n : Nat)
  | mapPush
  | tagSet (t : Nat)
  | tstrAppend
deriving DecidableEq

/-- Parsing context entry (src/parser/ll.rs, enum Context). -/
inductive Context where
  | action (a : ActionTag)
  | terminalSymbol (k : Kind)
  | nonTerminalSymbol (nt : NonTerm)
deriving DecidableEq

/-- src/parser/ll/context_stack.rs.  `inner` lists the stack top first. -/
structure ContextStack where
  inner : List Context
  upper : Nat
deriving DecidableEq

/-- ContextStack::cbor. -/
def ContextStack.cbor : ContextStack :=
  ⟨[.nonTerminalSymbol .value], 16384⟩

/-- ContextStack::push_kind. -/
def ContextStack.pushKind (cs : ContextStack) (k : Kind) :
    Except Error ContextStack :=
  if cs.inner.length < cs.upper then
    .ok ⟨.terminalSymbol k :: cs.inner, cs.upper⟩
  else
    .error .insufficientStackSize

/-- ContextStack::push_non_term. -/
def ContextStack.pushNonTerm (cs : ContextStack) (nt : NonTerm) :
    Except Error ContextStack :=
  if cs.inner.length < cs.upper then
    .ok ⟨.nonTerminalSymbol nt :: cs.inner, cs.upper⟩
  else
    .error .insufficientStackSize

/-- ContextStack::push_multiple_non_term. -/
def ContextStack.pushMultipleNonTerm (cs : ContextStack) (nt : NonTerm)
    (count : Nat) : Except Error ContextStack :=
  if count ≤ cs.upper ∧ cs.inner.length < cs.upper - count then
    .ok ⟨List.replicate count (.nonTerminalSymbol nt) ++ cs.inner, cs.upper⟩
  else
    .error .insufficientStackSize

/-- ContextStack::push_action. -/
def ContextStack.pushAction (cs : ContextStack) (a : ActionTag) :
    Except Error ContextStack :=
  if cs.inner.length < cs.upper then
    .ok ⟨.action a :: cs.inner, cs.upper⟩
  else
    .error .insufficientStackSize

/-- ValueStack::do_array_collect (src/parser/ll/value_stack.rs).  Pops `n`
values (panicking when fewer are present), reverses them into input order
and pushes the array. -/
def doArrayCollect (n : Nat) (vals : List Value) : Option (List Value) :=
  if n ≤ vals.length then
    some (.array ((vals.take n).reverse) :: vals.drop n)
  else
    none

/-- ValueStack::do_array_push. -/
def doArrayPush : List Value → Option (List Value)
  | v :: .array vs :: rest => some (.array (vs ++ [v]) :: rest)
  | _ => none

/-- ValueStack::do_bstr_append. -/
def doBstrAppend : List Value → Option (List Value)
  | .bstr child :: .bstr parent :: rest =>
    some (.bstr (parent ++ child) :: rest)
  | _ => none

/-- The pop loop of ValueStack::do_map_collect: each iteration pops a
value, then a label. -/
def collectPairs : Nat → List Value → Option (List (Value × Value) × List Value)
  | 0, vals => some ([], vals)
  | k + 1, v :: l :: rest =>
    match collectPairs k rest with
    | some (ps, leftover) => some ((l, v) :: ps, leftover)
    | none => none
  | _ + 1, _ => none

/-- ValueStack::do_map_collect. -/
def doMapCollect (n : Nat) (vals : List Value) : Option (List Value) :=
  match collectPairs n vals with
  | some (ps, leftover) => some (.map ps.reverse :: leftover)
  | none => none

/-- ValueStack::do_map_push. -/
def doMapPush : List Value → Option (List Value)
  | v :: l :: .map entries :: rest => some (.map (entries ++ [(l, v)]) :: rest)
  | _ => none

/-- ValueStack::do_tag_set. -/
def doTagSet (t : Nat) : List Value → Option (List Value)
  | v :: rest => some (.tag t v :: rest)
  | _ => none

/-- ValueStack::do_tstr_append.  Both popped values go through
Value::as_tstr, whose `String::from_utf8(...).unwrap()` panics on invalid
UTF-8; `push_str` concatenates the byte sequences. -/
def doTstrAppend (vals : List Value) : Option (List Value) :=
  match vals with
  | child :: parent :: rest =>
    match child.asTstr with
    | none => none
    | some none => none
    | some (some cbytes) =>
      match parent.asTstr with
      | none => none
      | some none => none
      | some (some pbytes) => some (.tstr (pbytes ++ cbytes) :: rest)
  | _ => none

/-- Dispatch a semantic action on the value stack (the closures of ll.rs
only touch the value stack). -/
def applyAction : ActionTag → List Value → Option (List Value)
  | .arrayCollect n, vals => doArrayCollect n vals
  | .arrayPush, vals => doArrayPush vals
  | .bstrAppend, vals => doBstrAppend vals
  | .mapCollect n, vals => doMapCollect n vals
  | .mapPush, vals => doMapPush vals
  | .tagSet t, vals => doTagSet t vals
  | .tstrAppend, vals => doTstrAppend vals

/-- Outcome of the internal LL stepping functions. -/
inductive Step where
  | panic
  | err (e : Error)
  | ok (cxt : ContextStack) (vals : List Value)

/-- src/parser/ll.rs, fn do_flush / do_flush_: pop and execute semantic
actions until the top of the context stack is not an action; a
non-action entry is pushed back. -/
def flushAux (upper : Nat) : List Context → List Value → Step
  | [], vals => .ok ⟨[], upper⟩ vals
  | .action a :: rest, vals =>
    match applyAction a vals with
    | none => .panic
    | some vals1 => flushAux upper rest vals1
  | .terminalSymbol k :: rest, vals =>
    match ContextStack.pushKind ⟨rest, upper⟩ k with
    | .error e => .err e
    | .ok cxt1 => .ok cxt1 vals
  | .nonTerminalSymbol nt :: rest, vals =>
    match ContextStack.pushNonTerm ⟨rest, upper⟩ nt with
    | .error e => .err e
    | .ok cxt1 => .ok cxt1 vals

/-- src/parser/ll.rs, fn do_consume / do_consume_.  The fuel bounds the
recursion depth of the Rust mutual recursion (one unit per popped
context entry, plus at most four successive grammar expansions per
token); the wrapper `consume` supplies more than enough. -/
def doConsume : Nat → ContextStack → List Value → Token → Step
  | 0, _, _, _ => .panic
  | fuel + 1, cxt, vals, input =>
    match cxt.inner with
    | [] => .err .trailingInput
    | context :: rest =>
      let below : ContextStack := ⟨rest, cxt.upper⟩
      match context with
      | .action a =>
        match applyAction a vals with
        | none => .panic
        | some vals1 => doConsume fuel below vals1 input
      | .terminalSymbol kind =>
        if kind = input.kind then
          match Value.tryFromToken input with
          | none => .panic
          | some (.ok v) => flushAux cxt.upper rest (v :: vals)
          | some (.error _) => flushAux cxt.upper rest vals
        else
          match below.pushKind kind with
          | .error e => .err e
          | .ok _ => .err (.unexpectedT [kind] input)
      | .nonTerminalSymbol .value =>
        match input with
        | .brk =>
          match below.pushNonTerm .value with
          | .error e => .err e
          | .ok _ =>
            .err (.unexpectedT
              [.array, .arrayX, .bstr, .bstrX, .float, .map, .mapX, .nint,
                .simple, .tag, .tstr, .tstrX, .uint] input)
        | .uint _ | .nint _ | .simple _ | .float _ =>
          match below.pushKind input.kind with
          | .error e => .err e
          | .ok cxt1 => doConsume fuel cxt1 vals input
        | .bstr _ | .bstrX =>
          match below.pushNonTerm .bstr with
          | .error e => .err e
          | .ok cxt1 => doConsume fuel cxt1 vals input
        | .tstr _ | .tstrX =>
          match below.pushNonTerm .tstr with
          | .error e => .err e
          | .ok cxt1 => doConsume fuel cxt1 vals input
        | .array _ | .arrayX =>
          match below.pushNonTerm .array with
          | .error e => .err e
          | .ok cxt1 => doConsume fuel cxt1 vals input
        | .map _ | .mapX =>
          match below.pushNonTerm .map with
          | .error e => .err e
          | .ok cxt1 => doConsume fuel cxt1 vals input
        | .tag _ =>
          match below.pushNonTerm .tag with
          | .error e => .err e
          | .ok cxt1 => doConsume fuel cxt1 vals input
      | .nonTerminalSymbol .array =>
        match input with
        | .array n =>
          match (do
              let c1 ← below.pushAction (.arrayCollect n)
              let c2 ← c1.pushMultipleNonTerm .value n
              c2.pushKind .array) with
          | .error e => .err e
          | .ok cxt1 => doConsume fuel cxt1 vals input
        | .arrayX =>
          match (do
              let c1 ← below.pushNonTerm .arrayXSeq
              c1.pushKind .arrayX) with
          | .error e => .err e
          | .ok cxt1 => doConsume fuel cxt1 vals input
        | _ =>
          match below.pushNonTerm .array with
          | .error e => .err e
          | .ok _ => .err (.unexpectedT [.array, .arrayX] input)
      | .nonTerminalSymbol .arrayXSeq =>
        match input with
        | .brk =>
          match below.pushKind .brk with
          | .error e => .err e
          | .ok cxt1 => doConsume fuel cxt1 vals input
        | _ =>
          match (do
              let c1 ← below.pushNonTerm .arrayXSeq
              let c2 ← c1.pushAction .arrayPush
              c2.pushNonTerm .value) with
          | .error e => .err e
          | .ok cxt1 => doConsume fuel cxt1 vals input
      | .nonTerminalSymbol .bstr =>
        match input with
        | .bstr _ =>
          match below.pushKind .bstr with
          | .error e => .err e
          | .ok cxt1 => doConsume fuel cxt1 vals input
        | .bstrX =>
          match (do
              let c1 ← below.pushNonTerm .bstrXSeq
              c1.pushKind .bstrX) with
          | .error e => .err e
          | .ok cxt1 => doConsume fuel cxt1 vals input
        | _ =>
          match below.pushNonTerm .bstr with
          | .error e => .err e
          | .ok _ => .err (.unexpectedT [.bstr, .bstrX] input)
      | .nonTerminalSymbol .bstrXSeq =>
        match input with
        | .brk =>
          match below.pushKind .brk with
          | .error e => .err e
          | .ok cxt1 => doConsume fuel cxt1 vals input
        | .bstr _ | .bstrX =>
          match (do
              let c1 ← below.pushNonTerm .bstrXSeq
              let c2 ← c1.pushAction .bstrAppend
              c2.pushNonTerm .bstr) with
          | .error e => .err e
          | .ok cxt1 => doConsume fuel cxt1 vals input
        | _ =>
          match below.pushNonTerm .bstrXSeq with
          | .error e => .err e
          | .ok _ => .err (.unexpectedT [.brk, .bstr, .bstrX] input)
      | .nonTerminalSymbol .map =>
        match input with
        | .map n =>
          match (do
              let c1 ← below.pushAction (.mapCollect n)
              -- (2 * n) as u64 wraps on overflow in release mode
              let c2 ← c1.pushMultipleNonTerm .value (2 * n % u64Mod)
              c2.pushKind .map) with
          | .error e => .err e
          | .ok cxt1 => doConsume fuel cxt1 vals input
        | .mapX =>
          match (do
              let c1 ← below.pushNonTerm .mapXSeq
              c1.pushKind .mapX) with
          | .error e => .err e
          | .ok cxt1 => doConsume fuel cxt1 vals input
        | _ =>
          match below.pushNonTerm .map with
          | .error e => .err e
          | .ok _ => .err (.unexpectedT [.map, .mapX] input)
      | .nonTerminalSymbol .mapXSeq =>
        match input with
        | .brk =>
          match below.pushKind .brk with
          | .error e => .err e
          | .ok cxt1 => doConsume fuel cxt1 vals input
        | _ =>
          match (do
              let c1 ← below.pushNonTerm .mapXSeq
              let c2 ← c1.pushAction .mapPush
              let c3 ← c2.pushNonTerm .value
              c3.pushNonTerm .value) with
          | .error e => .err e
          | .ok cxt1 => doConsume fuel cxt1 vals input
      | .nonTerminalSymbol .tag =>
        match input with
        | .tag t =>
          match (do
              let c1 ← below.pushAction (.tagSet t)
              let c2 ← c1.pushNonTerm .value
              c2.pushKind .tag) with
          | .error e => .err e
          | .ok cxt1 => doConsume fuel cxt1 vals input
        | _ =>
          match below.pushNonTerm .tag with
          | .error e => .err e
          | .ok _ => .err (.unexpectedT [.tag] input)
      | .nonTerminalSymbol .tstr =>
        match input with
        | .tstr _ =>
          match below.pushKind .tstr with
          | .error e => .err e
          | .ok cxt1 => doConsume fuel cxt1 vals input
        | .tstrX =>
          match (do
              let c1 ← below.pushNonTerm .tstrXSeq
              c1.pushKind .tstrX) with
          | .error e => .err e
          | .ok cxt1 => doConsume fuel cxt1 vals input
        | _ =>
          match below.pushNonTerm .tstr with
          | .error e => .err e
          | .ok _ => .err (.unexpectedT [.tstr, .tstrX] input)
      | .nonTerminalSymbol .tstrXSeq =>
        match input with
        | .brk =>
          match below.pushKind .brk with
          | .error e => .err e
          | .ok cxt1 => doConsume fuel cxt1 vals input
        | .tstr _ | .tstrX =>
          match (do
              let c1 ← below.pushNonTerm .tstrXSeq
              let c2 ← c1.pushAction .tstrAppend
              c2.pushNonTerm .tstr) with
          | .error e => .err e
          | .ok cxt1 => doConsume fuel cxt1 vals input
        | _ =>
          match below.pushNonTerm .tstrXSeq with
          | .error e => .err e
          | .ok _ => .err (.unexpectedT [.brk, .tstr, .tstrX] input)

/-- LL parser state (src/parser/ll.rs, struct Parser/State; the
observational visitor is omitted). -/
structure Parser where
  cxt : ContextStack
  vals : List Value

/-- ll::Parser::cbor. -/
def Parser.cbor : Parser := ⟨ContextStack.cbor, []⟩

/-- ll::Parser::consume (the impl of the Parser trait for the LL
parser). -/
def Parser.consume (p : Parser) (term : Token) : POut Parser :=
  match doConsume (p.cxt.inner.length + 8) p.cxt p.vals term with
  | .panic => .panic
  | .err e => .err e
  | .ok cxt1 vals1 =>
    match cxt1.inner with
    | _ :: _ => .ok ⟨cxt1, vals1⟩ none
    | [] =>
      match vals1 with
      | [] => .err .invalid
      | [v] => .ok ⟨cxt1, []⟩ (some v)
      | _ => .err .internal

/-- ll::Parser::init takes `&self`: it only notifies the attached visitor
and returns Ok(None); the parser state cannot change. -/
def Parser.init (_ : Parser) : Except Error (Option Value) := .ok none

/-- Feed a token list to an LL parser. -/
def runTokens (p : Parser) (ts : List Token) : POut Parser :=
  run Parser.consume p ts

end LL

/-! ## LR(1) parser (src/parser/lr.rs with state.rs, state_stack.rs,
value_stack.rs, production.rs)

The recursion of lr::Parser::do_consume (shift and reduce re-enter the
driver) is modelled with a fuel parameter dominating its depth.  Rust
panics (the `let Some(…) = … else panic!` blocks in the reducers, the
`panic!` arms of next_action, assert_eq! in reduce10) are a `panic`
outcome.  Each `Production` constructor stands for the corresponding
PRODUCTION_NN constant, whose reduce field is interpreted by
`applyReduce`. -/

namespace LR

open Parser

/-- Parser states (src/parser/lr/state.rs, enum State). -/
inductive State where
  | invalid
  | init
  | accept
  | valueUint (n : Nat)
  | valueNint (n : Nat)
  | valueFloat (n : Nat)
  | valueBstr
  | valueTstr
  | valueSimple (n : Nat)
  | valueTag
  | valueArrayX
  | valueMapX
  | bstrXSeqOpen
  | bstrXSeqBreak
  | bstrXSeqBstr (bytes : List Nat)
  | bstrXSeqMore
  | bstrBstr (bytes : List Nat)
  | bstrBstrX
  | tstrXSeqOpen
  | tstrXSeqBreak
  | tstrXSeqTstr (bytes : List Nat)
  | tstrXSeqMore
  | tstrTstr (bytes : List Nat)
  | tstrTstrX
  | tagNumber (t : Nat)
  | valueArray (k n : Nat)
  | arrayXSeqOpen
  | arrayXSeqBreak
  | arrayXSeqValue
  | arrayXSeqMore
  | valueMap (k n : Nat)
  | mapXSeqOpen
  | mapXSeqBreak
  | mapXSeqValue1
  | mapXSeqValue2
  | mapXSeqMore
deriving DecidableEq

/-- State::array_next. -/
def State.arrayNext (k n : Nat) : State :=
  if k < n then .valueArray (k + 1) n else .valueArray n n

/-- State::map_next. -/
def State.mapNext (k n : Nat) : State :=
  if k < n then .valueMap (k + 1) n else .valueMap n n

/-- src/parser/lr/state_stack.rs.  `inner` lists the stack top first. -/
structure StateStack where
  inner : List State
  upper : Nat
deriving DecidableEq

/-- StateStack::cbor. -/
def StateStack.cbor : StateStack := ⟨[.init], 16384⟩

/-- StateStack::push. -/
def StateStack.push (ss : StateStack) (s : State) : Except Error StateStack :=
  if ss.inner.length < ss.upper then
    .ok ⟨s :: ss.inner, ss.upper⟩
  else
    .error .insufficientStackSize

/-- src/parser/lr/value_stack.rs.  `inner` lists the stack top first. -/
structure ValueStack where
  inner : List Value
  upper : Nat

/-- ValueStack::push (the only bounded operation; the merge helpers use
the raw Vec push). -/
def ValueStack.push (vs : ValueStack) (v : Value) : Except Error ValueStack :=
  if vs.inner.length < vs.upper then
    .ok ⟨v :: vs.inner, vs.upper⟩
  else
    .error .insufficientStackSize

/-- ValueStack::merge_value_array (panics modelled by none). -/
def ValueStack.mergeValueArray (vs : ValueStack) : Option ValueStack :=
  match vs.inner with
  | .array elements :: v :: rest =>
    some ⟨.array (elements ++ [v]) :: rest, vs.upper⟩
  | _ => none

/-- ValueStack::merge_value_value_map. -/
def ValueStack.mergeValueValueMap (vs : ValueStack) : Option ValueStack :=
  match vs.inner with
  | .map entries :: v2 :: v1 :: rest =>
    some ⟨.map (entries ++ [(v1, v2)]) :: rest, vs.upper⟩
  | _ => none

/-- ValueStack::reverse_array. -/
def ValueStack.reverseArray (vs : ValueStack) : Option ValueStack :=
  match vs.inner with
  | .array elements :: rest => some ⟨.array elements.reverse :: rest, vs.upper⟩
  | _ => none

/-- ValueStack::reverse_map. -/
def ValueStack.reverseMap (vs : ValueStack) : Option ValueStack :=
  match vs.inner with
  | .map entries :: rest => some ⟨.map entries.reverse :: rest, vs.upper⟩
  | _ => none

/-- ValueStack::bstr_prepend. -/
def ValueStack.bstrPrepend (vs : ValueStack) (bytes : List Nat) :
    Option ValueStack :=
  match vs.inner with
  | .bstr moreBytes :: rest => some ⟨.bstr (bytes ++ moreBytes) :: rest, vs.upper⟩
  | _ => none

/-- ValueStack::tstr_prepend: the popped top goes through Value::as_tstr
(UTF-8 validated, panics on invalid); the prepended chunk `bytes` is not
validated. -/
def ValueStack.tstrPrepend (vs : ValueStack) (bytes : List Nat) :
    Option ValueStack :=
  match vs.inner with
  | v :: rest =>
    match v.asTstr with
    | some (some moreBytes) => some ⟨.tstr (bytes ++ moreBytes) :: rest, vs.upper⟩
    | _ => none
  | [] => none

/-- ValueStack::to_tagged. -/
def ValueStack.toTagged (vs : ValueStack) (t : Nat) : Option ValueStack :=
  match vs.inner with
  | v :: rest => some ⟨.tag t v :: rest, vs.upper⟩
  | [] => none

/-- LR parser state (src/parser/lr.rs, struct Parser). -/
structure Parser where
  states : StateStack
  values : ValueStack

/-- lr::Parser::cbor (StateStack::cbor and ValueStack::default). -/
def Parser.cbor : Parser := ⟨StateStack.cbor, ⟨[], 16384⟩⟩

/-- The grammar productions 1–23 (the PRODUCTION_NN constants of
src/parser/lr.rs); each is interpreted by its reducer below. -/
inductive Production where
  | p01 | p02 | p03 | p04 | p05 | p06 | p07 | p08 | p09 | p10 | p11 | p12
  | p13 | p14 | p15 | p16 | p17 | p18 | p19 | p20 | p21 | p22 | p23
deriving DecidableEq

/-- Parser action (src/parser/lr/action.rs, enum Action: Shift, Reduce,
Accept). -/
inductive Action where
  | shift (s : State)
  | reduce (p : Production)
  | accept
deriving DecidableEq

/-- Result of next_action: the Rust function returns
Result<Option<Action>, Error> but never an Err; its panic! arms are
`panic`, Ok(None) is `needMore`, Ok(Some(a)) is `act a`. -/
inductive NAct where
  | panic
  | needMore
  | act (a : Action)
deriving DecidableEq

/-- The start_value! macro of next_action: default shifts for every
value-starting terminal; `onBreak` is the extra arm supplied at each use
site (panic in start_value_or_panic!). -/
def startValue (onBreak : NAct) : Option Token → NAct
  | none => .needMore
  | some (.uint n) => .act (.shift (.valueUint n))
  | some (.nint n) => .act (.shift (.valueNint n))
  | some (.float n) => .act (.shift (.valueFloat n))
  | some (.simple n) => .act (.shift (.valueSimple n))
  | some (.tag t) => .act (.shift (.tagNumber t))
  | some (.bstr b) => .act (.shift (.bstrBstr b))
  | some .bstrX => .act (.shift .bstrXSeqOpen)
  | some (.tstr t) => .act (.shift (.tstrTstr t))
  | some .tstrX => .act (.shift .tstrXSeqOpen)
  -- (2 * n) as u64 wraps on overflow in release mode
  | some (.array n) => .act (.shift (.valueArray 0 n))
  | some .arrayX => .act (.shift .arrayXSeqOpen)
  | some (.map n) => .act (.shift (.valueMap 0 (2 * n % u64Mod)))
  | some .mapX => .act (.shift .mapXSeqOpen)
  | some .brk => onBreak

/-- The start_bstrx! macro: only Break and definite Bstr chunks are
handled; any other terminal falls to the `onOther` arm (panic at every
use site, via start_bstrx_or_panic!). -/
def startBstrX (onOther : NAct) : Option Token → NAct
  | none => .needMore
  | some .brk => .act (.shift .bstrXSeqBreak)
  | some (.bstr bytes) => .act (.shift (.bstrXSeqBstr bytes))
  | some _ => onOther

/-- The start_tstrx! macro. -/
def startTstrX (onOther : NAct) : Option Token → NAct
  | none => .needMore
  | some .brk => .act (.shift .tstrXSeqBreak)
  | some (.tstr bytes) => .act (.shift (.tstrXSeqTstr bytes))
  | some _ => onOther

/-- src/parser/lr.rs, fn next_action. -/
def nextAction (state : State) (term : Option Token) : NAct :=
  match state with
  | .invalid => .panic
  | .accept => .act .accept
  | .valueUint _ => .act (.reduce .p01)
  | .valueNint _ => .act (.reduce .p02)
  | .valueFloat _ => .act (.reduce .p03)
  | .valueBstr => .act (.reduce .p04)
  | .valueTstr => .act (.reduce .p05)
  | .valueSimple _ => .act (.reduce .p06)
  | .valueTag => .act (.reduce .p07)
  | .valueArray k n =>
    if k = n then .act (.reduce .p08)
    else if k < n then startValue .panic term
    else .act (.shift .invalid)
  | .valueArrayX => .act (.reduce .p09)
  | .valueMap k n =>
    if k = n then .act (.reduce .p10)
    else if k < n then startValue .panic term
    else .act (.shift .invalid)
  | .valueMapX => .act (.reduce .p11)
  | .bstrBstr _ => .act (.reduce .p12)
  | .bstrBstrX => .act (.reduce .p13)
  | .tstrTstr _ => .act (.reduce .p14)
  | .tstrTstrX => .act (.reduce .p15)
  | .bstrXSeqBreak => .act (.reduce .p16)
  | .bstrXSeqMore => .act (.reduce .p17)
  | .tstrXSeqBreak => .act (.reduce .p18)
  | .tstrXSeqMore => .act (.reduce .p19)
  | .arrayXSeqBreak => .act (.reduce .p20)
  | .arrayXSeqMore => .act (.reduce .p21)
  | .mapXSeqBreak => .act (.reduce .p22)
  | .mapXSeqMore => .act (.reduce .p23)
  | .init => startValue .panic term
  | .tagNumber _ => startValue .panic term
  | .mapXSeqValue1 => startValue .panic term
  | .bstrXSeqOpen => startBstrX .panic term
  | .bstrXSeqBstr _ => startBstrX .panic term
  | .tstrXSeqOpen => startTstrX .panic term
  | .tstrXSeqTstr _ => startTstrX .panic term
  | .arrayXSeqOpen => startValue (.act (.shift .arrayXSeqBreak)) term
  | .arrayXSeqValue => startValue (.act (.shift .arrayXSeqBreak)) term
  | .mapXSeqOpen => startValue (.act (.shift .mapXSeqBreak)) term
  | .mapXSeqValue2 => startValue (.act (.shift .mapXSeqBreak)) term

/-- src/parser/lr.rs, fn goto2 (the goto table). -/
def goto2 (state : State) (nt : NonTerm) : Except Error State :=
  match state with
  | .init =>
    match nt with
    | .value => .ok .accept
    | .bstr => .ok .valueBstr
    | .tstr => .ok .valueTstr
    | other => .error (.unexpectedNT [.value, .bstr, .tstr] other)
  | .tagNumber _ =>
    match nt with
    | .value => .ok .valueTag
    | other => .error (.unexpectedNT [.value] other)
  | .bstrXSeqOpen =>
    match nt with
    | .bstrXSeq => .ok .bstrBstrX
    | other => .error (.unexpectedNT [.bstrXSeq] other)
  | .bstrXSeqBstr _ =>
    match nt with
    | .bstrXSeq => .ok .bstrXSeqMore
    | other => .error (.unexpectedNT [.bstrXSeq] other)
  | .tstrXSeqOpen =>
    match nt with
    | .tstrXSeq => .ok .tstrTstrX
    | other => .error (.unexpectedNT [.tstrXSeq] other)
  | .tstrXSeqTstr _ =>
    match nt with
    | .tstrXSeq => .ok .tstrXSeqMore
    | other => .error (.unexpectedNT [.tstrXSeq] other)
  | .arrayXSeqOpen =>
    match nt with
    | .arrayXSeq => .ok .valueArrayX
    | .value => .ok .arrayXSeqValue
    | other => .error (.unexpectedNT [.arrayXSeq, .value] other)
  | .arrayXSeqValue =>
    match nt with
    | .arrayXSeq => .ok .arrayXSeqMore
    | .value => .ok .arrayXSeqValue
    | other => .error (.unexpectedNT [.arrayXSeq, .value] other)
  | .valueArray k n =>
    match nt with
    | .value => .ok (State.arrayNext k n)
    | other => .error (.unexpectedNT [.value] other)
  | .mapXSeqOpen =>
    match nt with
    | .mapXSeq => .ok .valueMapX
    | .value => .ok .mapXSeqValue1
    | other => .error (.unexpectedNT [.mapXSeq, .value] other)
  | .mapXSeqValue1 =>
    match nt with
    | .value => .ok .mapXSeqValue2
    | other => .error (.unexpectedNT [.value] other)
  | .mapXSeqValue2 =>
    match nt with
    | .mapXSeq => .ok .mapXSeqMore
    | .value => .ok .mapXSeqValue1
    | other => .error (.unexpectedNT [.mapXSeq, .value] other)
  | .valueMap k n =>
    match nt with
    | .value => .ok (State.mapNext k n)
    | other => .error (.unexpectedNT [.value] other)
  | _ => .error (.unexpected "goto: state not handled")

/-- src/parser/lr.rs, fn goto. -/
def goto (state : Option State) (nt : NonTerm) : Except Error State :=
  match state with
  | none => .error (.unexpected "goto: empty state stack")
  | some s => goto2 s nt

/-- Result of a reducer (fn(&mut Parser) -> Result<NonTerm, Error>, with
panics as `panic`). -/
inductive RedOut where
  | panic
  | err (e : Error)
  | ok (nt : NonTerm) (p : Parser)

/-- lr::Parser::reduce01: <VALUE> ← %uint(n). -/
def reduce01 (p : Parser) : RedOut :=
  match p.states.inner with
  | .valueUint n :: rest =>
    match p.values.push (.uint n) with
    | .error e => .err e
    | .ok vals1 => .ok .value ⟨⟨rest, p.states.upper⟩, vals1⟩
  | _ => .panic

/-- lr::Parser::reduce02: <VALUE> ← %nint(n). -/
def reduce02 (p : Parser) : RedOut :=
  match p.states.inner with
  | .valueNint n :: rest =>
    match p.values.push (.nint n) with
    | .error e => .err e
    | .ok vals1 => .ok .value ⟨⟨rest, p.states.upper⟩, vals1⟩
  | _ => .panic

/-- lr::Parser::reduce03: <VALUE> ← %float. -/
def reduce03 (p : Parser) : RedOut :=
  match p.states.inner with
  | .valueFloat n :: rest =>
    match p.values.push (.float n) with
    | .error e => .err e
    | .ok vals1 => .ok .value ⟨⟨rest, p.states.upper⟩, vals1⟩
  | _ => .panic

/-- lr::Parser::reduce04: <VALUE> ← <BSTR>. -/
def reduce04 (p : Parser) : RedOut :=
  match p.states.inner with
  | .valueBstr :: rest => .ok .value ⟨⟨rest, p.states.upper⟩, p.values⟩
  | _ => .panic

/-- lr::Parser::reduce05: <VALUE> ← <TSTR>. -/
def reduce05 (p : Parser) : RedOut :=
  match p.states.inner with
  | .valueTstr :: rest => .ok .value ⟨⟨rest, p.states.upper⟩, p.values⟩
  | _ => .panic

/-- lr::Parser::reduce06: <VALUE> ← %simple. -/
def reduce06 (p : Parser) : RedOut :=
  match p.states.inner with
  | .valueSimple n :: rest =>
    match p.values.push (.simple n) with
    | .error e => .err e
    | .ok vals1 => .ok .value ⟨⟨rest, p.states.upper⟩, vals1⟩
  | _ => .panic

/-- lr::Parser::reduce07: <VALUE> ← %tag <VALUE>. -/
def reduce07 (p : Parser) : RedOut :=
  match p.states.inner with
  | .valueTag :: .tagNumber t :: rest =>
    match p.values.toTagged t with
    | none => .panic
    | some vals1 => .ok .value ⟨⟨rest, p.states.upper⟩, vals1⟩
  | _ => .panic

/-- The pop loop of reduce08: at countdown value c+1 the expected state is
ValueArray(c, n); one value is popped per state, appended in pop order. -/
def reduce08Aux (n : Nat) :
    Nat → List State → List Value → List Value →
    Option (List State × List Value × List Value)
  | 0, sts, vls, acc => some (sts, vls, acc)
  | c + 1, .valueArray k1 n1 :: sts, vls, acc =>
    if k1 = c ∧ n1 = n then
      match vls with
      | v :: vls1 => reduce08Aux n c sts vls1 (acc ++ [v])
      | [] => none
    else none
  | _ + 1, _, _, _ => none

/-- lr::Parser::reduce08: <VALUE> ← %array(n) {n}<VALUE>. -/
def reduce08 (p : Parser) : RedOut :=
  match p.states.inner with
  | .valueArray k n :: rest =>
    if k ≠ n then .panic
    else
      match reduce08Aux n n rest p.values.inner [] with
      | none => .panic
      | some (sts, vls, acc) =>
        match ValueStack.push ⟨vls, p.values.upper⟩ (.array acc.reverse) with
        | .error e => .err e
        | .ok vals1 => .ok .value ⟨⟨sts, p.states.upper⟩, vals1⟩
  | _ => .panic

/-- lr::Parser::reduce09: <VALUE> ← %arrayx <ARRAYXSEQ>. -/
def reduce09 (p : Parser) : RedOut :=
  match p.states.inner with
  | .valueArrayX :: .arrayXSeqOpen :: rest =>
    match p.values.reverseArray with
    | none => .panic
    | some vals1 => .ok .value ⟨⟨rest, p.states.upper⟩, vals1⟩
  | _ => .panic

/-- The pop loop of reduce10: each iteration pops two ValueMap states
(checking the counters step down from k) and one key/value pair. -/
def reduce10Aux (n : Nat) :
    Nat → Nat → List State → List Value → List (Value × Value) →
    Option (List State × List Value × List (Value × Value))
  | 0, _, sts, vls, acc => some (sts, vls, acc)
  | c + 1, k, .valueMap k1 n1 :: .valueMap k2 n2 :: sts, v2 :: v1 :: vls, acc =>
    if k1 + 1 = k ∧ n1 = n ∧ k2 + 1 = k - 1 ∧ n2 = n then
      reduce10Aux n c (k - 2) sts vls (acc ++ [(v1, v2)])
    else none
  | _ + 1, _, _, _, _ => none

/-- lr::Parser::reduce10: <VALUE> ← %map(n) {2n}<VALUE>.  The
assert_eq!(0, n % 2) is active in release builds as well. -/
def reduce10 (p : Parser) : RedOut :=
  match p.states.inner with
  | .valueMap k n :: rest =>
    if k ≠ n then .panic
    else if n % 2 ≠ 0 then .panic
    else
      match reduce10Aux n (n / 2) n rest p.values.inner [] with
      | none => .panic
      | some (sts, vls, acc) =>
        match ValueStack.push ⟨vls, p.values.upper⟩ (.map acc.reverse) with
        | .error e => .err e
        | .ok vals1 => .ok .value ⟨⟨sts, p.states.upper⟩, vals1⟩
  | _ => .panic

/-- lr::Parser::reduce11: <VALUE> ← %mapx <MAPXSEQ>. -/
def reduce11 (p : Parser) : RedOut :=
  match p.states.inner with
  | .valueMapX :: .mapXSeqOpen :: rest =>
    match p.values.reverseMap with
    | none => .panic
    | some vals1 => .ok .value ⟨⟨rest, p.states.upper⟩, vals1⟩
  | _ => .panic

/-- lr::Parser::reduce12: <BSTR> ← %bstr. -/
def reduce12 (p : Parser) : RedOut :=
  match p.states.inner with
  | .bstrBstr bytes :: rest =>
    match p.values.push (.bstr bytes) with
    | .error e => .err e
    | .ok vals1 => .ok .bstr ⟨⟨rest, p.states.upper⟩, vals1⟩
  | _ => .panic

/-- lr::Parser::reduce13: <BSTR> ← %bstrx <BSTRXSEQ>. -/
def reduce13 (p : Parser) : RedOut :=
  match p.states.inner with
  | .bstrBstrX :: .bstrXSeqOpen :: rest =>
    .ok .bstr ⟨⟨rest, p.states.upper⟩, p.values⟩
  | _ => .panic

/-- lr::Parser::reduce14: <TSTR> ← %tstr. -/
def reduce14 (p : Parser) : RedOut :=
  match p.states.inner with
  | .tstrTstr text :: rest =>
    match p.values.push (.tstr text) with
    | .error e => .err e
    | .ok vals1 => .ok .tstr ⟨⟨rest, p.states.upper⟩, vals1⟩
  | _ => .panic

/-- lr::Parser::reduce15: <TSTR> ← %tstrx <TSTRXSEQ>. -/
def reduce15 (p : Parser) : RedOut :=
  match p.states.inner with
  | .tstrTstrX :: .tstrXSeqOpen :: rest =>
    .ok .tstr ⟨⟨rest, p.states.upper⟩, p.values⟩
  | _ => .panic

/-- lr::Parser::reduce16: <BSTRXSEQ> ← %break. -/
def reduce16 (p : Parser) : RedOut :=
  match p.states.inner with
  | .bstrXSeqBreak :: rest =>
    match p.values.push (.bstr []) with
    | .error e => .err e
    | .ok vals1 => .ok .bstrXSeq ⟨⟨rest, p.states.upper⟩, vals1⟩
  | _ => .panic

/-- lr::Parser::reduce17: <BSTRXSEQ> ← <BSTR> <BSTRXSEQ>. -/
def reduce17 (p : Parser) : RedOut :=
  match p.states.inner with
  | .bstrXSeqMore :: .bstrXSeqBstr bytes :: rest =>
    match p.values.bstrPrepend bytes with
    | none => .panic
    | some vals1 => .ok .bstrXSeq ⟨⟨rest, p.states.upper⟩, vals1⟩
  | _ => .panic

/-- lr::Parser::reduce18: <TSTRXSEQ> ← %break. -/
def reduce18 (p : Parser) : RedOut :=
  match p.states.inner with
  | .tstrXSeqBreak :: rest =>
    match p.values.push (.tstr []) with
    | .error e => .err e
    | .ok vals1 => .ok .tstrXSeq ⟨⟨rest, p.states.upper⟩, vals1⟩
  | _ => .panic

/-- lr::Parser::reduce19: <TSTRXSEQ> ← <TSTR> <TSTRXSEQ>. -/
def reduce19 (p : Parser) : RedOut :=
  match p.states.inner with
  | .tstrXSeqMore :: .tstrXSeqTstr bytes :: rest =>
    match p.values.tstrPrepend bytes with
    | none => .panic
    | some vals1 => .ok .tstrXSeq ⟨⟨rest, p.states.upper⟩, vals1⟩
  | _ => .panic

/-- lr::Parser::reduce20: <ARRAYXSEQ> ← %break. -/
def reduce20 (p : Parser) : RedOut :=
  match p.states.inner with
  | .arrayXSeqBreak :: rest =>
    match p.values.push (.array []) with
    | .error e => .err e
    | .ok vals1 => .ok .arrayXSeq ⟨⟨rest, p.states.upper⟩, vals1⟩
  | _ => .panic

/-- lr::Parser::reduce21: <ARRAYXSEQ> ← <VALUE> <ARRAYXSEQ>. -/
def reduce21 (p : Parser) : RedOut :=
  match p.states.inner with
  | .arrayXSeqMore :: .arrayXSeqValue :: rest =>
    match p.values.mergeValueArray with
    | none => .panic
    | some vals1 => .ok .arrayXSeq ⟨⟨rest, p.states.upper⟩, vals1⟩
  | _ => .panic

/-- lr::Parser::reduce22: <MAPXSEQ> ← %break. -/
def reduce22 (p : Parser) : RedOut :=
  match p.states.inner with
  | .mapXSeqBreak :: rest =>
    match p.values.push (.map []) with
    | .error e => .err e
    | .ok vals1 => .ok .mapXSeq ⟨⟨rest, p.states.upper⟩, vals1⟩
  | _ => .panic

/-- lr::Parser::reduce23: <MAPXSEQ> ← <VALUE> <VALUE> <MAPXSEQ>. -/
def reduce23 (p : Parser) : RedOut :=
  match p.states.inner with
  | .mapXSeqMore :: .mapXSeqValue2 :: .mapXSeqValue1 :: rest =>
    match p.values.mergeValueValueMap with
    | none => .panic
    | some vals1 => .ok .mapXSeq ⟨⟨rest, p.states.upper⟩, vals1⟩
  | _ => .panic

/-- Dispatch of Production::reduce. -/
def applyReduce : Production → Parser → RedOut
  | .p01, p => reduce01 p
  | .p02, p => reduce02 p
  | .p03, p => reduce03 p
  | .p04, p => reduce04 p
  | .p05, p => reduce05 p
  | .p06, p => reduce06 p
  | .p07, p => reduce07 p
  | .p08, p => reduce08 p
  | .p09, p => reduce09 p
  | .p10, p => reduce10 p
  | .p11, p => reduce11 p
  | .p12, p => reduce12 p
  | .p13, p => reduce13 p
  | .p14, p => reduce14 p
  | .p15, p => reduce15 p
  | .p16, p => reduce16 p
  | .p17, p => reduce17 p
  | .p18, p => reduce18 p
  | .p19, p => reduce19 p
  | .p20, p => reduce20 p
  | .p21, p => reduce21 p
  | .p22, p => reduce22 p
  | .p23, p => reduce23 p

/-- src/parser/lr.rs, fn do_consume (with fn shift, fn reduce and fn
accept inlined at their single call sites).  The fuel dominates the
re-entry depth of the Rust recursion. -/
def doConsume : Nat → Parser → Option Token → POut Parser
  | 0, _, _ => .panic
  | fuel + 1, p, term =>
    match p.states.inner with
    | [] => .err .invalid
    | current :: _ =>
      match nextAction current term with
      | .panic => .panic
      | .needMore => .ok p none
      | .act (.shift s) =>
        match p.states.push s with
        | .error e => .err e
        | .ok states1 => doConsume fuel ⟨states1, p.values⟩ none
      | .act (.reduce prod) =>
        match applyReduce prod p with
        | .panic => .panic
        | .err e => .err e
        | .ok nt p1 =>
          match goto p1.states.inner.head? nt with
          | .error e => .err e
          | .ok s1 =>
            match p1.states.push s1 with
            | .error e => .err e
            | .ok states2 => doConsume fuel ⟨states2, p1.values⟩ term
      | .act .accept =>
        match p.states.inner with
        | .accept :: rest =>
          match p.values.inner with
          | v :: vrest =>
            .ok ⟨⟨rest, p.states.upper⟩, ⟨vrest, p.values.upper⟩⟩ (some v)
          | [] => .panic
        | _ => .panic

/-- lr::Parser::consume (the impl of the Parser trait). -/
def Parser.consume (p : Parser) (term : Token) : POut Parser :=
  doConsume (4 * p.states.inner.length + 16) p (some term)

/-- Feed a token list to an LR parser. -/
def runTokens (p : Parser) (ts : List Token) : POut Parser :=
  run Parser.consume p ts

end LR

/-! ## Proof-support definitions -/

/-- The head bytes actually rejected by the scanner's head table. -/
def Scanner.badHead (b : Nat) : Bool :=
  decide ((0x1c ≤ b ∧ b ≤ 0x1f) ∨ (0x3c ≤ b ∧ b ≤ 0x3f) ∨
    (0x5c ≤ b ∧ b ≤ 0x5e) ∨ (0x7c ≤ b ∧ b ≤ 0x7e) ∨
    (0x9c ≤ b ∧ b ≤ 0x9e) ∨ (0xbc ≤ b ∧ b ≤ 0xbe) ∨
    (0xdc ≤ b ∧ b ≤ 0xdf) ∨ (0xfc ≤ b ∧ b ≤ 0xfe))

/-- Is a scanner outcome an error? -/
def Scanner.isErr : Option Scanner.ScanResult → Bool
  | some (.error _) => true
  | _ => false

/-- The context-stack segment accumulated below the topmost ArrayXSeq
obligation after opening `j + 1` nested indefinite arrays. -/
def LL.arrayXPat : Nat → List LL.Context
  | 0 => []
  | j + 1 =>
    .action .arrayPush :: .nonTerminalSymbol .arrayXSeq :: LL.arrayXPat j

/-- Scanner state well-formedness is decidable (each arm is a finite
conjunction of decidable arithmetic facts). -/
instance Scanner.WF.instDecidable (s : Scanner.ScanState) :
    Decidable (Scanner.WF s) :=
  match s with
  | .head => .isTrue trivial
  | .arg kind arg pending =>
    inferInstanceAs (Decidable
      (0 < pending ∧ pending ≤ 8 ∧ (kind = .simple → pending = 1 ∧ arg = 0)))
  | .pay kind _ pending =>
    inferInstanceAs (Decidable (0 < pending ∧ (kind = .bstr ∨ kind = .tstr)))

/-- Well-formedness of a scan outcome is decidable. -/
instance Scanner.ResultWF.instDecidable (r : Option Scanner.ScanResult) :
    Decidable (Scanner.ResultWF r) :=
  match r with
  | some (.incomplete s) => inferInstanceAs (Decidable (Scanner.WF s))
  | some (.complete s _) => inferInstanceAs (Decidable (Scanner.WF s))
  | some (.error _) => .isTrue trivial
  | none => .isFalse (fun h => h)

/-! # Theorems -/

/-! ## UTF-8 validity lemmas -/

theorem utf8Run_zero (lo hi : Nat) (l : List Nat) :
    utf8Run 0 lo hi l = utf8Valid l := by
  cases l <;> rfl

theorem utf8Run_append {p lo hi : Nat} {l1 l2 : List Nat}
    (h1 : utf8Run p lo hi l1 = true) (h2 : utf8Valid l2 = true) :
    utf8Run p lo hi (l1 ++ l2) = true := by
  induction l1 generalizing p lo hi with
  | nil =>
    rw [utf8Run] at h1
    have hp : p = 0 := by simpa using h1
    subst hp
    simpa [utf8Run_zero] using h2
  | cons b rest ih =>
    simp only [List.cons_append]
    match p with
    | 0 =>
      rw [utf8Run] at h1 ⊢
      repeat' split at h1
      all_goals (try cases h1)
      all_goals repeat' split
      all_goals (first | exact ih h1 | omega)
    | pending + 1 =>
      rw [utf8Run] at h1 ⊢
      rw [Bool.and_eq_true] at h1 ⊢
      exact ⟨h1.1, ih h1.2⟩

/-- Valid UTF-8 sequences are closed under concatenation. -/
theorem utf8Valid_append {a b : List Nat} (ha : utf8Valid a = true)
    (hb : utf8Valid b = true) : utf8Valid (a ++ b) = true :=
  utf8Run_append ha hb

/-! ## Run-step helper lemmas -/

theorem LL.runTokens_cons {p p1 : LL.Parser} {t : Token} {ts : List Token}
    (h : p.consume t = .ok p1 none) :
    LL.runTokens p (t :: ts) = LL.runTokens p1 ts := by
  show runFrom _ p none (t :: ts) = _
  rw [runFrom, h]
  rfl

theorem LL.runTokens_err {p : LL.Parser} {t : Token} {ts : List Token}
    {e : Parser.Error} (h : p.consume t = .err e) :
    LL.runTokens p (t :: ts) = .err e := by
  show runFrom _ p none (t :: ts) = _
  rw [runFrom, h]

theorem LR.runTokens_cons_lr {p p1 : LR.Parser} {t : Token} {ts : List Token}
    (h : p.consume t = .ok p1 none) :
    LR.runTokens p (t :: ts) = LR.runTokens p1 ts := by
  show runFrom _ p none (t :: ts) = _
  rw [runFrom, h]
  rfl

theorem LR.runTokens_err_lr {p : LR.Parser} {t : Token} {ts : List Token}
    {e : Parser.Error} (h : p.consume t = .err e) :
    LR.runTokens p (t :: ts) = .err e := by
  show runFrom _ p none (t :: ts) = _
  rw [runFrom, h]

/-! ## Claim theorems -/

/-- C1: the claim that for every grammar-accepted token sequence the LL
and the LR parser agree at every step is refuted by the one-token
sequence [Float(0)] (Value → %float): the LL parser panics in
Value::try_from (the todo!() arm) while the LR parser returns
Ok(Some(Float(0))). -/
theorem C1_parsers_disagree_on_float :
    LL.Parser.consume LL.Parser.cbor (.float 0) = .panic ∧
    LR.Parser.consume LR.Parser.cbor (.float 0) =
      .ok ⟨⟨[.init], 16384⟩, ⟨[], 16384⟩⟩ (some (.float 0)) :=
  ⟨rfl, rfl⟩

/-- C2: the nested indefinite byte string %bstrx %bstrx %break %break is
parsed by the LL parser to Bstr([]), but the LR parser panics on the
second BstrX (the start_bstrx_or_panic! arm for state BstrXSeqOpen has no
BstrX case), contradicting the claim that both parsers accept nested
indefinite strings. -/
theorem C2_lr_panics_on_nested_bstrx :
    LL.runTokens LL.Parser.cbor [.bstrX, .bstrX, .brk, .brk] =
      .ok ⟨⟨[], 16384⟩, []⟩ (some (.bstr [])) ∧
    LR.runTokens LR.Parser.cbor [.bstrX, .bstrX, .brk, .brk] = .panic :=
  ⟨rfl, rfl⟩

/-- C3: Value::try_from(token) fails exactly on Array, Map, Tag and Break
as claimed, but on Float it does not return Ok: it panics
(Float(_) => todo!()), refuting the "including Float(n) — without
panicking" part of the claim. -/
theorem C3_tryfrom_characterisation :
    (∀ t : Token, (Value.tryFromToken t = none ↔ t.kind = .float)) ∧
    (∀ t : Token, ((∃ e, Value.tryFromToken t = some (.error e)) ↔
      (t.kind = .array ∨ t.kind = .map ∨ t.kind = .tag ∨ t.kind = .brk))) ∧
    Value.tryFromToken (.float 0) = none := by
  refine ⟨?_, ?_, rfl⟩ <;> intro t <;> cases t <;>
    simp [Value.tryFromToken, Token.kind]

/-- C4 (counterexample): an indefinite text string whose single chunk is
the invalid UTF-8 byte 0xff makes the LL parser panic
(String::from_utf8(...).unwrap() inside Value::as_tstr, reached from
do_tstr_append), so no concatenated Tstr value is produced. -/
theorem C4_ll_panics_on_invalid_utf8_chunk :
    LL.runTokens LL.Parser.cbor [.tstrX, .tstr [0xff], .brk] = .panic := rfl

/-- C5: the claim fails on the LR parser: after Array(1) the complete
value Bstr([1]) is reduced to the non-terminal Bstr, and goto2 has no
Bstr entry for state ValueArray, so the LR parser returns
Err(UnexpectedNT([Value], Bstr)) and produces no array, while the LL
parser produces Array([Bstr([1])]). -/
theorem C5_lr_rejects_array_of_bstr :
    LL.runTokens LL.Parser.cbor [.array 1, .bstr [1]] =
      .ok ⟨⟨[], 16384⟩, []⟩ (some (.array [.bstr [1]])) ∧
    LR.runTokens LR.Parser.cbor [.array 1, .bstr [1]] =
      .err (.unexpectedNT [.value] .bstr) :=
  ⟨rfl, rfl⟩

/-- C6 (counterexample): the byte 0xf0, claimed to be an illegal head,
is accepted by the scanner as the Simple(0x10) token (head arm
0xe0..=0xf7). -/
theorem C6_byte_f0_is_simple :
    Scanner.consume .head 0xf0 = some (.complete .head (.simple 0x10)) := rfl

/-- C7 (counterexample): a freshly constructed ll::Parser::cbor() parser
does not return Err(Invalid) before init(): consuming Uint(0) directly
yields Ok(Some(Uint(0))). -/
theorem C7_fresh_parser_accepts :
    LL.Parser.consume LL.Parser.cbor (.uint 0) =
      .ok ⟨⟨[], 16384⟩, []⟩ (some (.uint 0)) ∧
    LL.Parser.consume LL.Parser.cbor (.uint 0) ≠ .err .invalid := by
  refine ⟨rfl, ?_⟩
  intro h
  cases h

/-- C7 (amended): ll::Parser::init takes &self, changes no parser state
and returns Ok(None); a cbor()-constructed parser accepts tokens
immediately, so consume behaves identically before and after init(). -/
theorem C7_init_is_observational :
    (∀ p : LL.Parser, p.init = .ok none) ∧
    LL.Parser.consume LL.Parser.cbor (.uint 5) =
      .ok ⟨⟨[], 16384⟩, []⟩ (some (.uint 5)) :=
  ⟨fun _ => rfl, rfl⟩

/-! ## Scanner totality (C9) -/

/-- In the `Head` state the scanner handles every byte without panicking,
checked exhaustively over all 256 byte values. -/
theorem Scanner.consume_head_wf : ∀ b : Nat, b < 256 →
    Scanner.ResultWF (Scanner.consume .head b) := by decide

/-- Shifting a `u64` accumulator left by one byte and oring in a byte
value stays within `usize` range. -/
theorem arg_shift_le (a b : Nat) (hb : b < 256) :
    a * 256 % u64Mod + b ≤ usizeMax := by
  have h1 : a * 256 % u64Mod = a % 2 ^ 56 * 256 := by
    have h : (u64Mod : Nat) = 2 ^ 56 * 256 := by norm_num [u64Mod]
    rw [h, Nat.mul_mod_mul_right]
  have h2 : a % 2 ^ 56 < 2 ^ 56 := Nat.mod_lt _ (by norm_num)
  simp only [usizeMax, h1]
  omega

/-- `Scanner.token` yields a well-formed outcome whenever a `Simple`
argument is in range (all other kinds are unconditional). -/
theorem Scanner.ResultWF_token {k : Kind} {a : Nat} {pl : List Nat}
    (h : k = .simple → a < 256) : Scanner.ResultWF (Scanner.token k a pl) := by
  cases k <;> simp [Scanner.token, Scanner.ResultWF, Scanner.WF]
  rw [if_pos (h rfl)]
  simp [Scanner.ResultWF, Scanner.WF]

/-- `Scanner.gatherBytes` yields a well-formed outcome for `Bstr`/`Tstr`
kinds and a positive count. -/
theorem Scanner.ResultWF_gatherBytes {k : Kind} {c : Nat}
    (h1 : k = .bstr ∨ k = .tstr) (h2 : 0 < c) :
    Scanner.ResultWF (Scanner.gatherBytes k c) := by
  simp only [Scanner.gatherBytes]
  split
  · exact ⟨h2, h1⟩
  · trivial

/-- C9: on every well-formed scanner state and every byte value,
`Scanner.consume` returns a result (token, in-progress state, or error)
and never panics: the `assert!(pending > 0)` guards, the
`Simple(argument.try_into().unwrap())` conversion, and the
payload-gathering `panic!` arm are all unreachable, and every successor
state is again well-formed. -/
theorem C9_scanner_no_panic (s : Scanner.ScanState) (b : Nat)
    (hs : Scanner.WF s) (hb : b < 256) :
    Scanner.ResultWF (Scanner.consume s b) := by
  cases s with
  | head => exact Scanner.consume_head_wf b hb
  | arg kind a p =>
    obtain ⟨hp, hp8, hsimple⟩ := hs
    rw [Scanner.consume]
    rw [if_neg (by omega)]
    by_cases hp1 : 0 < p - 1
    · rw [if_pos hp1]
      refine ⟨hp1, by omega, fun h => absurd ((hsimple h).1) (by omega)⟩
    · rw [if_neg hp1]
      by_cases hz : a * 256 % u64Mod + b = 0
      · rw [if_pos hz]
        cases kind <;>
          exact Scanner.ResultWF_token
            (fun hk => by first | exact absurd hk (by decide) | omega)
      · rw [if_neg hz]
        cases kind
        all_goals first
          | exact Scanner.ResultWF_gatherBytes (Or.inl rfl) (by omega)
          | exact Scanner.ResultWF_gatherBytes (Or.inr rfl) (by omega)
          | exact Scanner.ResultWF_token (fun hk => absurd hk (by decide))
          | exact Scanner.ResultWF_token (fun _ => by
              have ha := (hsimple rfl).2
              subst ha
              simpa [u64Mod] using hb)
  | pay kind bs p =>
    obtain ⟨hp, hk⟩ := hs
    rw [Scanner.consume]
    rw [if_neg (by omega)]
    by_cases hp1 : 0 < p - 1
    · rw [if_pos hp1]
      exact ⟨hp1, hk⟩
    · rw [if_neg hp1]
      rcases hk with h | h <;> subst h <;>
        exact Scanner.ResultWF_token (fun hk => absurd hk (by decide))

/-- The totality theorem instantiated at a concrete mid-argument state
and byte. -/
theorem C9_scanner_no_panic_witness :
    Scanner.WF (.arg .uint 0 8) ∧ (0x2a : Nat) < 256 ∧
      Scanner.ResultWF (Scanner.consume (.arg .uint 0 8) 0x2a) :=
  ⟨by decide, by decide,
    C9_scanner_no_panic (.arg .uint 0 8) 0x2a (by decide) (by decide)⟩

/-! ## LL text-string concatenation validates UTF-8 (C10) -/

/-- `Value.asTstr` succeeds with bytes `b` exactly on a `Tstr b` whose
payload is valid UTF-8. -/
theorem Value.asTstr_some_some {v : Value} {b : List Nat}
    (h : v.asTstr = some (some b)) : v = .tstr b ∧ utf8Valid b = true := by
  cases v
  case tstr bytes =>
    simp only [Value.asTstr] at h
    split at h
    next hval =>
      obtain rfl : bytes = b := by simpa using h
      exact ⟨rfl, hval⟩
    next => cases h
  all_goals simp [Value.asTstr] at h

/-- C10: `do_tstr_append` panics (returns `none` in the embedding) when
the appended chunk is not valid UTF-8; whenever it returns, both popped
values were `Tstr`s with valid-UTF-8 payloads and the pushed result is
their valid-UTF-8 concatenation; while the `TryFrom` conversion for
definite-length `Tstr` tokens performs no validation at all. -/
theorem C10_tstr_utf8 :
    (∀ bs p rest, utf8Valid bs = false →
      LL.doTstrAppend (.tstr bs :: p :: rest) = none) ∧
    (∀ vals res, LL.doTstrAppend vals = some res →
      ∃ cb pb rest, vals = .tstr cb :: .tstr pb :: rest ∧
        res = .tstr (pb ++ cb) :: rest ∧ utf8Valid cb = true ∧
        utf8Valid pb = true ∧ utf8Valid (pb ++ cb) = true) ∧
    (∀ bs, Value.tryFromToken (.tstr bs) = some (.ok (.tstr bs))) := by
  refine ⟨?_, ?_, fun bs => rfl⟩
  · intro bs p rest hbs
    simp [LL.doTstrAppend, Value.asTstr, hbs]
  · intro vals res h
    match vals with
    | [] => simp [LL.doTstrAppend] at h
    | [v] => simp [LL.doTstrAppend] at h
    | child :: parent :: rest =>
      simp only [LL.doTstrAppend] at h
      split at h
      next => exact Option.noConfusion h
      next => exact Option.noConfusion h
      next cb hca =>
        split at h
        next => exact Option.noConfusion h
        next => exact Option.noConfusion h
        next pb hpa =>
          obtain ⟨rfl, hcv⟩ := Value.asTstr_some_some hca
          obtain ⟨rfl, hpv⟩ := Value.asTstr_some_some hpa
          obtain rfl : Value.tstr (pb ++ cb) :: rest = res := by simpa using h
          exact ⟨cb, pb, rest, rfl, rfl, hcv, hpv, utf8Valid_append hpv hcv⟩

/-- The panic branch of the C10 theorem at the concrete invalid chunk
`[0xff]`. -/
theorem C10_tstr_utf8_witness :
    utf8Valid [0xff] = false ∧
      LL.doTstrAppend (.tstr [0xff] :: .tstr [] :: []) = none :=
  ⟨by decide, C10_tstr_utf8.1 [0xff] (.tstr []) [] (by decide)⟩

/-! ## Scanner head-error characterisation (C6, amended) -/

/-- `Scanner.token` never produces an error result (its only outcomes
are a completed token or, for an out-of-range `Simple` argument, a
panic). -/
theorem Scanner.isErr_token (k : Kind) (a : Nat) (pl : List Nat) :
    Scanner.isErr (Scanner.token k a pl) = false := by
  cases k <;> simp only [Scanner.token] <;> first
    | rfl
    | (split <;> rfl)

/-- C6 (amended): in the `Head` state the scanner errors exactly on the
bytes of `Scanner.badHead` (the ranges 0x1c-0x1f, 0x3c-0x3f, 0x5c-0x5e,
0x7c-0x7e, 0x9c-0x9e, 0xbc-0xbe, 0xdc-0xdf and 0xfc-0xfe), always as
`UnexpectedHead(byte)`; in well-formed non-`Head` states it never
errors.  In particular 0xf0-0xf7 are accepted (as `Simple` heads),
contrary to the claimed error list. -/
theorem C6_head_error_set :
    (∀ b : Nat, b < 256 →
      Scanner.isErr (Scanner.consume .head b) = Scanner.badHead b ∧
        (Scanner.badHead b = true →
          Scanner.consume .head b = some (.error (.unexpectedHead b)))) ∧
    (∀ s b, Scanner.WF s → b < 256 → s ≠ .head →
      Scanner.isErr (Scanner.consume s b) = false) := by
  refine ⟨by decide, ?_⟩
  intro s b hs hb hne
  cases s with
  | head => exact absurd rfl hne
  | arg kind a p =>
    obtain ⟨hp, hp8, hsimple⟩ := hs
    rw [Scanner.consume, if_neg (by omega)]
    by_cases hp1 : 0 < p - 1
    · rw [if_pos hp1]
      rfl
    · rw [if_neg hp1]
      by_cases hz : a * 256 % u64Mod + b = 0
      · rw [if_pos hz]
        cases kind <;> exact Scanner.isErr_token ..
      · rw [if_neg hz]
        cases kind <;> first
          | exact Scanner.isErr_token ..
          | (show Scanner.isErr
                (Scanner.gatherBytes _ (a * 256 % u64Mod + b)) = false
             rw [Scanner.gatherBytes, if_pos (arg_shift_le a b hb)]
             rfl)
  | pay kind bs p =>
    obtain ⟨hp, hk⟩ := hs
    rw [Scanner.consume, if_neg (by omega)]
    by_cases hp1 : 0 < p - 1
    · rw [if_pos hp1]
      rfl
    · rw [if_neg hp1]
      rcases hk with h | h <;> subst h <;> exact Scanner.isErr_token ..

/-- The amended C6 theorem at the rejected head byte 0x1c and at a
concrete well-formed payload state. -/
theorem C6_head_error_set_witness :
    Scanner.consume .head 0x1c = some (.error (.unexpectedHead 0x1c)) ∧
      Scanner.isErr (Scanner.consume (.pay .bstr [] 1) 0x2a) = false :=
  ⟨(C6_head_error_set.1 0x1c (by decide)).2 (by decide),
   C6_head_error_set.2 (.pay .bstr [] 1) 0x2a (by decide) (by decide)
     (by decide)⟩

/-! ## Stack bounds (C8) -/

/-- The context segment for `j` nested indefinite arrays is `2 j` entries
deep. -/
theorem LL.arrayXPat_length (j : Nat) : (LL.arrayXPat j).length = 2 * j := by
  induction j with
  | zero => rfl
  | succ n ih =>
    simp only [LL.arrayXPat, List.length_cons, ih]
    omega

/-- One further `ArrayX` token at nesting depth `j` pushes one more
ArrayXSeq obligation and one empty array, while the stack stays within
bounds. -/
theorem LL.arrayXStep (f j : Nat) (vals : List Value)
    (hj : 2 * j + 3 < 16384) :
    LL.doConsume (f + 1 + 1 + 1 + 1)
      ⟨.nonTerminalSymbol .arrayXSeq :: LL.arrayXPat j, 16384⟩ vals .arrayX =
    .ok ⟨.nonTerminalSymbol .arrayXSeq :: LL.arrayXPat (j + 1), 16384⟩
      (.array [] :: vals) := by
  have h0 : 2 * j < 16384 := by omega
  have h1 : 2 * j + 1 < 16384 := by omega
  have h2 : 2 * j + 1 + 1 < 16384 := by omega
  have h3 : 2 * j + 1 + 1 + 1 < 16384 := by omega
  simp only [LL.doConsume]
  simp only [LL.ContextStack.pushNonTerm, LL.ContextStack.pushAction,
    LL.ContextStack.pushKind, List.length_cons, LL.arrayXPat_length,
    h0, h1, h2, h3, if_true, Bind.bind, Except.bind]
  simp only [Token.kind, Value.tryFromToken, LL.flushAux,
    LL.ContextStack.pushNonTerm, List.length_cons, LL.arrayXPat_length,
    h2, if_true]
  rfl

/-- At nesting depth 8191 (context depth 16383) the expansion of
ArrayXSeq overflows the context stack on its third push. -/
theorem LL.arrayXFail (f : Nat) (vals : List Value) :
    LL.doConsume (f + 1)
      ⟨.nonTerminalSymbol .arrayXSeq :: LL.arrayXPat 8191, 16384⟩ vals
      .arrayX =
    .err .insufficientStackSize := by
  have h0 : 2 * 8191 < 16384 := by norm_num
  have h1 : 2 * 8191 + 1 < 16384 := by norm_num
  have h2 : (2 * 8191 + 1 + 1 < 16384) = False := by norm_num
  simp only [LL.doConsume]
  simp only [LL.ContextStack.pushNonTerm, LL.ContextStack.pushAction,
    List.length_cons, LL.arrayXPat_length, h0, h1, h2, if_true, if_false,
    Bind.bind, Except.bind]

/-- The in-bounds `ArrayX` step at the `Parser::consume` level. -/
theorem LL.consume_arrayX_step (j : Nat) (vals : List Value)
    (hj : 2 * j + 3 < 16384) :
    LL.Parser.consume
      ⟨⟨.nonTerminalSymbol .arrayXSeq :: LL.arrayXPat j, 16384⟩, vals⟩
      .arrayX =
    .ok ⟨⟨.nonTerminalSymbol .arrayXSeq :: LL.arrayXPat (j + 1), 16384⟩,
      .array [] :: vals⟩ none := by
  have h := LL.arrayXStep (2 * j + 5) j vals hj
  simp only [LL.Parser.consume, List.length_cons, LL.arrayXPat_length]
  rw [show (2 * j + 1 + 8 : Nat) = 2 * j + 5 + 1 + 1 + 1 + 1 from rfl]
  rw [h]

/-- The overflowing `ArrayX` step at the `Parser::consume` level. -/
theorem LL.consume_arrayX_fail (vals : List Value) :
    LL.Parser.consume
      ⟨⟨.nonTerminalSymbol .arrayXSeq :: LL.arrayXPat 8191, 16384⟩, vals⟩
      .arrayX =
    .err .insufficientStackSize := by
  have h := LL.arrayXFail (2 * 8191 + 8) vals
  simp only [LL.Parser.consume, List.length_cons, LL.arrayXPat_length]
  rw [show (2 * 8191 + 1 + 8 : Nat) = 2 * 8191 + 8 + 1 from rfl]
  rw [h]

/-- The first `ArrayX` token from the fresh LL parser. -/
theorem LL.consume_cbor_arrayX :
    LL.Parser.cbor.consume .arrayX =
    .ok ⟨⟨[.nonTerminalSymbol .arrayXSeq], 16384⟩, [.array []]⟩ none := rfl

/-- Feeding more `ArrayX` tokens than the remaining stack capacity
allows always ends in `InsufficientStackSize`. -/
theorem LL.arrayXRunErr : ∀ n j vals, j ≤ 8191 → 8191 - j < n →
    LL.runTokens
      ⟨⟨.nonTerminalSymbol .arrayXSeq :: LL.arrayXPat j, 16384⟩, vals⟩
      (List.replicate n .arrayX) = .err .insufficientStackSize := by
  intro n
  induction n with
  | zero => intro j vals hj hn; omega
  | succ m ih =>
    intro j vals hj hn
    rw [List.replicate_succ]
    by_cases hje : j = 8191
    · subst hje
      exact LL.runTokens_err (LL.consume_arrayX_fail vals)
    · have hj3 : 2 * j + 3 < 16384 := by omega
      rw [LL.runTokens_cons (LL.consume_arrayX_step j vals hj3)]
      exact ih (j + 1) (.array [] :: vals) (by omega) (by omega)

/-- An LR state whose action on `ArrayX` is a shift of ArrayXSeqOpen
performs that shift and then waits for more input. -/
theorem LR.consume_arrayX_step_lr (s : LR.State) (σ : List LR.State)
    (vs : LR.ValueStack)
    (hs : LR.nextAction s (some .arrayX) = .act (.shift .arrayXSeqOpen))
    (hl : σ.length + 1 < 16384) :
    LR.Parser.consume ⟨⟨s :: σ, 16384⟩, vs⟩ .arrayX =
    .ok ⟨⟨.arrayXSeqOpen :: s :: σ, 16384⟩, vs⟩ none := by
  simp only [LR.Parser.consume, List.length_cons]
  rw [show (4 * (σ.length + 1) + 16 : Nat) =
    4 * (σ.length + 1) + 14 + 1 + 1 from rfl]
  simp only [LR.doConsume, hs, LR.StateStack.push, List.length_cons, hl,
    if_true]
  rfl

/-- The same shift overflows when the state stack is full. -/
theorem LR.consume_arrayX_fail_lr (s : LR.State) (σ : List LR.State)
    (vs : LR.ValueStack)
    (hs : LR.nextAction s (some .arrayX) = .act (.shift .arrayXSeqOpen))
    (hl : (σ.length + 1 < 16384) = False) :
    LR.Parser.consume ⟨⟨s :: σ, 16384⟩, vs⟩ .arrayX =
    .err .insufficientStackSize := by
  simp only [LR.Parser.consume, List.length_cons]
  rw [show (4 * (σ.length + 1) + 16 : Nat) =
    4 * (σ.length + 1) + 14 + 1 + 1 from rfl]
  simp only [LR.doConsume, hs, LR.StateStack.push, List.length_cons, hl,
    if_false]

/-- Feeding more `ArrayX` tokens than the remaining LR state-stack
capacity allows always ends in `InsufficientStackSize`. -/
theorem LR.arrayXRunErr_lr : ∀ n m vs, m ≤ 16383 → 16383 - m < n →
    LR.runTokens
      ⟨⟨List.replicate m .arrayXSeqOpen ++ [.init], 16384⟩, vs⟩
      (List.replicate n .arrayX) = .err .insufficientStackSize := by
  intro n
  induction n with
  | zero => intro m vs h1 h2; omega
  | succ k ih =>
    intro m vs h1 h2
    obtain ⟨s, σ, hsσ, hact, hσlen⟩ :
        ∃ s σ, List.replicate m LR.State.arrayXSeqOpen ++ [.init] = s :: σ ∧
          LR.nextAction s (some .arrayX) = .act (.shift .arrayXSeqOpen) ∧
          σ.length = m := by
      cases m with
      | zero => exact ⟨.init, [], rfl, rfl, rfl⟩
      | succ n1 =>
        refine ⟨.arrayXSeqOpen,
          List.replicate n1 LR.State.arrayXSeqOpen ++ [.init],
          by simp [List.replicate_succ], rfl, by simp⟩
    rw [List.replicate_succ, hsσ]
    by_cases hm : m = 16383
    · refine LR.runTokens_err_lr (LR.consume_arrayX_fail_lr s σ vs hact ?_)
      rw [hσlen, hm]
      norm_num
    · have hstep := LR.consume_arrayX_step_lr s σ vs hact
        (by rw [hσlen]; omega)
      rw [LR.runTokens_cons_lr hstep]
      have hrw : LR.State.arrayXSeqOpen :: s :: σ =
          List.replicate (m + 1) LR.State.arrayXSeqOpen ++ [.init] := by
        rw [← hsσ, List.replicate_succ]
        rfl
      rw [hrw]
      exact ih (m + 1) vs (by omega) (by omega)

/-- C8: with the default bound 16384, feeding 16385 opening `ArrayX`
tokens to either parser yields `InsufficientStackSize` (the LL context
stack overflows while expanding the 8192nd nesting, the LR state stack
on its 16384th shift), and every single push beyond the bound fails with
`InsufficientStackSize` for all push operations of both stacks. -/
theorem C8_stack_bounds :
    LL.runTokens LL.Parser.cbor (List.replicate 16385 .arrayX) =
      .err .insufficientStackSize ∧
    LR.runTokens LR.Parser.cbor (List.replicate 16385 .arrayX) =
      .err .insufficientStackSize ∧
    (∀ cs : LL.ContextStack, ¬ cs.inner.length < cs.upper →
      (∀ k, cs.pushKind k = .error .insufficientStackSize) ∧
      (∀ nt, cs.pushNonTerm nt = .error .insufficientStackSize) ∧
      (∀ a, cs.pushAction a = .error .insufficientStackSize)) ∧
    (∀ (cs : LL.ContextStack) nt count,
      ¬ (count ≤ cs.upper ∧ cs.inner.length < cs.upper - count) →
      cs.pushMultipleNonTerm nt count = .error .insufficientStackSize) ∧
    (∀ ss : LR.StateStack, ¬ ss.inner.length < ss.upper →
      ∀ s, ss.push s = .error .insufficientStackSize) := by
  refine ⟨?_, ?_, ?_, ?_, ?_⟩
  · rw [show (16385 : Nat) = 16384 + 1 from rfl, List.replicate_succ,
      LL.runTokens_cons LL.consume_cbor_arrayX]
    exact LL.arrayXRunErr 16384 0 [.array []] (by norm_num) (by norm_num)
  · exact LR.arrayXRunErr_lr 16385 0 ⟨[], 16384⟩ (by norm_num) (by norm_num)
  · intro cs h
    exact ⟨fun k => by rw [LL.ContextStack.pushKind, if_neg h],
      fun nt => by rw [LL.ContextStack.pushNonTerm, if_neg h],
      fun a => by rw [LL.ContextStack.pushAction, if_neg h]⟩
  · intro cs nt count h
    rw [LL.ContextStack.pushMultipleNonTerm, if_neg h]
  · intro ss h s
    rw [LR.StateStack.push, if_neg h]

/-- The push-bound conjuncts of the C8 theorem applied at full stacks. -/
theorem C8_stack_bounds_witness :
    LL.ContextStack.pushKind ⟨[], 0⟩ .bstr =
      .error .insufficientStackSize ∧
    LR.StateStack.push ⟨[], 0⟩ .init =
      .error .insufficientStackSize :=
  ⟨(C8_stack_bounds.2.2.1 ⟨[], 0⟩ (by decide)).1 .bstr,
   C8_stack_bounds.2.2.2.2 ⟨[], 0⟩ (by decide) .init⟩

/-! ## Indefinite-length string concatenation (C4) -/

theorem LL.consume_cbor_bstrX :
    LL.Parser.cbor.consume .bstrX =
    .ok ⟨⟨[.nonTerminalSymbol .bstrXSeq], 16384⟩, [.bstr []]⟩ none := rfl

theorem LL.consume_bstr_chunk (c acc : List Nat) :
    LL.Parser.consume
      ⟨⟨[.nonTerminalSymbol .bstrXSeq], 16384⟩, [.bstr acc]⟩ (.bstr c) =
    .ok ⟨⟨[.nonTerminalSymbol .bstrXSeq], 16384⟩, [.bstr (acc ++ c)]⟩
      none := rfl

theorem LL.consume_bstr_brk (acc : List Nat) :
    LL.Parser.consume
      ⟨⟨[.nonTerminalSymbol .bstrXSeq], 16384⟩, [.bstr acc]⟩ .brk =
    .ok ⟨⟨[], 16384⟩, []⟩ (some (.bstr acc)) := rfl

theorem LL.consume_cbor_tstrX :
    LL.Parser.cbor.consume .tstrX =
    .ok ⟨⟨[.nonTerminalSymbol .tstrXSeq], 16384⟩, [.tstr []]⟩ none := rfl

theorem LL.consume_tstr_brk (acc : List Nat) :
    LL.Parser.consume
      ⟨⟨[.nonTerminalSymbol .tstrXSeq], 16384⟩, [.tstr acc]⟩ .brk =
    .ok ⟨⟨[], 16384⟩, []⟩ (some (.tstr acc)) := rfl

theorem LL.tstrChunkStep (f : Nat) (c acc : List Nat)
    (hc : utf8Valid c = true) (hacc : utf8Valid acc = true) :
    LL.doConsume (f + 1 + 1 + 1)
      ⟨[.nonTerminalSymbol .tstrXSeq], 16384⟩ [.tstr acc] (.tstr c) =
    .ok ⟨[.nonTerminalSymbol .tstrXSeq], 16384⟩ [.tstr (acc ++ c)] := by
  simp only [LL.doConsume]
  simp [LL.ContextStack.pushNonTerm, LL.ContextStack.pushAction,
    LL.ContextStack.pushKind, Bind.bind, Except.bind, Token.kind,
    Value.tryFromToken, LL.flushAux, LL.applyAction, LL.doTstrAppend,
    Value.asTstr, hc, hacc]

theorem LL.tstrChunkStepPanic (f : Nat) (c acc : List Nat)
    (hc : utf8Valid c = false) :
    LL.doConsume (f + 1 + 1 + 1)
      ⟨[.nonTerminalSymbol .tstrXSeq], 16384⟩ [.tstr acc] (.tstr c) =
    .panic := by
  simp only [LL.doConsume]
  simp [LL.ContextStack.pushNonTerm, LL.ContextStack.pushAction,
    LL.ContextStack.pushKind, Bind.bind, Except.bind, Token.kind,
    Value.tryFromToken, LL.flushAux, LL.applyAction, LL.doTstrAppend,
    Value.asTstr, hc]

theorem LL.consume_tstr_chunk (c acc : List Nat)
    (hc : utf8Valid c = true) (hacc : utf8Valid acc = true) :
    LL.Parser.consume
      ⟨⟨[.nonTerminalSymbol .tstrXSeq], 16384⟩, [.tstr acc]⟩ (.tstr c) =
    .ok ⟨⟨[.nonTerminalSymbol .tstrXSeq], 16384⟩, [.tstr (acc ++ c)]⟩
      none := by
  have h := LL.tstrChunkStep 6 c acc hc hacc
  simp only [LL.Parser.consume, List.length_cons, List.length_nil]
  rw [show (0 + 1 + 8 : Nat) = 6 + 1 + 1 + 1 from rfl]
  rw [h]

theorem LL.consume_tstr_chunk_panic (c acc : List Nat)
    (hc : utf8Valid c = false) :
    LL.Parser.consume
      ⟨⟨[.nonTerminalSymbol .tstrXSeq], 16384⟩, [.tstr acc]⟩ (.tstr c) =
    .panic := by
  have h := LL.tstrChunkStepPanic 6 c acc hc
  simp only [LL.Parser.consume, List.length_cons, List.length_nil]
  rw [show (0 + 1 + 8 : Nat) = 6 + 1 + 1 + 1 from rfl]
  rw [h]

theorem LL.runTokens_panic {p : LL.Parser} {t : Token} {ts : List Token}
    (h : p.consume t = .panic) : LL.runTokens p (t :: ts) = .panic := by
  show runFrom _ p none (t :: ts) = _
  rw [runFrom, h]

theorem LL.runTokens_last {p p1 : LL.Parser} {t : Token} {o : Option Value}
    (h : p.consume t = .ok p1 o) : LL.runTokens p [t] = .ok p1 o := by
  show runFrom _ p none [t] = _
  rw [runFrom, h]
  rfl

theorem LL.bstrLoop : ∀ (cs : List (List Nat)) (acc : List Nat),
    LL.runTokens ⟨⟨[.nonTerminalSymbol .bstrXSeq], 16384⟩, [.bstr acc]⟩
      (cs.map Token.bstr ++ [.brk]) =
    .ok ⟨⟨[], 16384⟩, []⟩ (some (.bstr (acc ++ cs.flatten))) := by
  intro cs
  induction cs with
  | nil =>
    intro acc
    simp only [List.map_nil, List.nil_append, List.flatten_nil,
      List.append_nil]
    exact LL.runTokens_last (LL.consume_bstr_brk acc)
  | cons c cs ih =>
    intro acc
    simp only [List.map_cons, List.cons_append, List.flatten_cons]
    rw [LL.runTokens_cons (LL.consume_bstr_chunk c acc)]
    rw [ih (acc ++ c), List.append_assoc]

theorem LL.tstrLoop : ∀ (cs : List (List Nat)) (acc : List Nat),
    utf8Valid acc = true →
    (∀ c ∈ cs, utf8Valid c = true) →
    LL.runTokens ⟨⟨[.nonTerminalSymbol .tstrXSeq], 16384⟩, [.tstr acc]⟩
      (cs.map Token.tstr ++ [.brk]) =
    .ok ⟨⟨[], 16384⟩, []⟩ (some (.tstr (acc ++ cs.flatten))) := by
  intro cs
  induction cs with
  | nil =>
    intro acc hacc hcs
    simp only [List.map_nil, List.nil_append, List.flatten_nil,
      List.append_nil]
    exact LL.runTokens_last (LL.consume_tstr_brk acc)
  | cons c cs ih =>
    intro acc hacc hcs
    have hc : utf8Valid c = true := hcs c (by simp)
    have hcs1 : ∀ x ∈ cs, utf8Valid x = true :=
      fun x hx => hcs x (by simp [hx])
    simp only [List.map_cons, List.cons_append, List.flatten_cons]
    rw [LL.runTokens_cons (LL.consume_tstr_chunk c acc hc hacc)]
    rw [ih (acc ++ c) (utf8Valid_append hacc hc) hcs1, List.append_assoc]

theorem LL.tstrPanicLoop : ∀ (pre : List (List Nat)) (acc : List Nat),
    utf8Valid acc = true →
    (∀ c ∈ pre, utf8Valid c = true) →
    ∀ bad post, utf8Valid bad = false →
    LL.runTokens ⟨⟨[.nonTerminalSymbol .tstrXSeq], 16384⟩, [.tstr acc]⟩
      ((pre ++ bad :: post).map Token.tstr ++ [.brk]) = .panic := by
  intro pre
  induction pre with
  | nil =>
    intro acc hacc hpre bad post hbad
    simp only [List.nil_append, List.map_cons, List.cons_append]
    exact LL.runTokens_panic (LL.consume_tstr_chunk_panic bad acc hbad)
  | cons c pre ih =>
    intro acc hacc hpre bad post hbad
    have hc : utf8Valid c = true := hpre c (by simp)
    have hpre1 : ∀ x ∈ pre, utf8Valid x = true :=
      fun x hx => hpre x (by simp [hx])
    simp only [List.cons_append, List.map_cons]
    rw [LL.runTokens_cons (LL.consume_tstr_chunk c acc hc hacc)]
    exact ih (acc ++ c) (utf8Valid_append hacc hc) hpre1 bad post hbad

theorem LR.runTokens_last_lr {p p1 : LR.Parser} {t : Token} {o : Option Value}
    (h : p.consume t = .ok p1 o) : LR.runTokens p [t] = .ok p1 o := by
  show runFrom _ p none [t] = _
  rw [runFrom, h]
  rfl

theorem LR.consume_cbor_bstrX_lr :
    LR.Parser.cbor.consume .bstrX =
    .ok ⟨⟨[.bstrXSeqOpen, .init], 16384⟩, ⟨[], 16384⟩⟩ none := rfl

theorem LR.consume_bstr_shift (s : LR.State) (σ : List LR.State)
    (vs : LR.ValueStack) (c : List Nat)
    (hs : LR.nextAction s (some (.bstr c)) =
      .act (.shift (.bstrXSeqBstr c)))
    (hl : σ.length + 1 < 16384) :
    LR.Parser.consume ⟨⟨s :: σ, 16384⟩, vs⟩ (.bstr c) =
    .ok ⟨⟨.bstrXSeqBstr c :: s :: σ, 16384⟩, vs⟩ none := by
  simp only [LR.Parser.consume, List.length_cons]
  rw [show (4 * (σ.length + 1) + 16 : Nat) =
    4 * (σ.length + 1) + 14 + 1 + 1 from rfl]
  simp only [LR.doConsume, hs, LR.StateStack.push, List.length_cons, hl,
    if_true]
  rfl

theorem LR.step17 (g : Nat) (d d2 : List Nat) (ρ : List LR.State)
    (acc : List Nat) (hl : ρ.length + 1 < 16384) :
    LR.doConsume (g + 1)
      ⟨⟨.bstrXSeqMore :: .bstrXSeqBstr d :: .bstrXSeqBstr d2 :: ρ, 16384⟩,
        ⟨[.bstr acc], 16384⟩⟩ none =
    LR.doConsume g
      ⟨⟨.bstrXSeqMore :: .bstrXSeqBstr d2 :: ρ, 16384⟩,
        ⟨[.bstr (d ++ acc)], 16384⟩⟩ none := by
  simp only [LR.doConsume]
  simp only [LR.nextAction, LR.applyReduce, LR.reduce17,
    LR.ValueStack.bstrPrepend, LR.goto, LR.goto2, List.head?,
    LR.StateStack.push, List.length_cons, hl, if_true]

theorem LR.bstrCascade : ∀ (ds : List (List Nat)) (d acc : List Nat)
    (g : Nat), ds.length + 1 + 1 + 1 < 16384 → ds.length + 3 ≤ g →
    LR.doConsume (g + 1)
      ⟨⟨.bstrXSeqMore :: .bstrXSeqBstr d ::
          ds.map .bstrXSeqBstr ++ [.bstrXSeqOpen, .init], 16384⟩,
        ⟨[.bstr acc], 16384⟩⟩ none =
    .ok ⟨⟨[.init], 16384⟩, ⟨[], 16384⟩⟩
      (some (.bstr ((d :: ds).reverse.flatten ++ acc))) := by
  intro ds
  induction ds with
  | nil =>
    intro d acc g hb hg
    obtain ⟨g1, rfl⟩ : ∃ g1, g = g1 + 1 + 1 + 1 := ⟨g - 3, by omega⟩
    simp only [List.map_nil, List.nil_append, List.reverse_cons,
      List.reverse_nil, List.flatten_append, List.flatten_cons,
      List.flatten_nil, List.nil_append, List.append_nil]
    rfl
  | cons d2 ds2 ih =>
    intro d acc g hb hg
    obtain ⟨g1, rfl⟩ : ∃ g1, g = g1 + 1 := ⟨g - 1, by omega⟩
    simp only [List.map_cons, List.cons_append]
    have hstep := LR.step17 (g1 + 1) d d2
      (List.map LR.State.bstrXSeqBstr ds2 ++
        [LR.State.bstrXSeqOpen, LR.State.init]) acc
      (by simp only [List.length_append, List.length_map,
        List.length_cons, List.length_nil]
          simp only [List.length_cons] at hb
          omega)
    rw [hstep]
    have hih := ih d2 (d ++ acc) g1
      (by simp only [List.length_cons] at hb; omega)
      (by simp only [List.length_cons] at hg; omega)
    refine hih.trans ?_
    simp only [List.reverse_cons, List.flatten_append, List.flatten_cons,
      List.flatten_nil, List.append_nil, List.append_assoc]

theorem LR.consume_bstrX_brk_empty :
    LR.Parser.consume ⟨⟨[.bstrXSeqOpen, .init], 16384⟩, ⟨[], 16384⟩⟩ .brk =
    .ok ⟨⟨[.init], 16384⟩, ⟨[], 16384⟩⟩ (some (.bstr [])) := rfl

theorem LR.consume_brk_entry_gen (d : List Nat) (ρ : List LR.State)
    (R : POut LR.Parser) (hρ : ρ.length + 1 < 16384)
    (hcas : ∀ g, ρ.length + 3 ≤ g →
      LR.doConsume (g + 1)
        ⟨⟨.bstrXSeqMore :: .bstrXSeqBstr d :: ρ, 16384⟩,
          ⟨[.bstr []], 16384⟩⟩ none = R) :
    LR.Parser.consume ⟨⟨.bstrXSeqBstr d :: ρ, 16384⟩, ⟨[], 16384⟩⟩
      .brk = R := by
  have h00 : (0 : Nat) < 16384 := by norm_num
  simp only [LR.Parser.consume, List.length_cons]
  generalize hF : 4 * (ρ.length + 1) + 16 = F
  obtain ⟨f1, rfl⟩ : ∃ f1, F = f1 + 1 := ⟨F - 1, by omega⟩
  simp only [LR.doConsume]
  simp only [LR.nextAction, LR.startBstrX, LR.StateStack.push,
    List.length_cons, hρ, if_true]
  obtain ⟨f2, rfl⟩ : ∃ f2, f1 = f2 + 1 := ⟨f1 - 1, by omega⟩
  simp only [LR.doConsume]
  simp only [LR.nextAction, LR.applyReduce, LR.reduce16,
    LR.ValueStack.push, List.length_nil, h00, if_true, LR.goto,
    List.head?, LR.goto2, LR.StateStack.push, List.length_cons, hρ]
  obtain ⟨g, rfl⟩ : ∃ g, f2 = g + 1 := ⟨f2 - 1, by omega⟩
  exact hcas g (by omega)

theorem LR.consume_bstr_brk_entry (d : List Nat) (ds : List (List Nat))
    (hb : ds.length + 1 + 1 + 1 < 16384) :
    LR.Parser.consume
      ⟨⟨.bstrXSeqBstr d :: ds.map .bstrXSeqBstr ++
          [.bstrXSeqOpen, .init], 16384⟩, ⟨[], 16384⟩⟩ .brk =
    .ok ⟨⟨[.init], 16384⟩, ⟨[], 16384⟩⟩
      (some (.bstr ((d :: ds).reverse.flatten))) := by
  refine LR.consume_brk_entry_gen d _ _ ?_ ?_
  · simp only [List.append_eq, List.length_append, List.length_map,
      List.length_cons, List.length_nil]
    omega
  · intro g hg
    have hg2 : ds.length + 3 ≤ g := by
      simp only [List.append_eq, List.length_append, List.length_map,
        List.length_cons, List.length_nil] at hg
      omega
    refine (LR.bstrCascade ds d [] g hb hg2).trans ?_
    simp

theorem LR.bstrFeed : ∀ (cs ds : List (List Nat)),
    ds.length + cs.length + 2 < 16384 →
    LR.runTokens
      ⟨⟨ds.map .bstrXSeqBstr ++ [.bstrXSeqOpen, .init], 16384⟩,
        ⟨[], 16384⟩⟩
      (cs.map Token.bstr ++ [.brk]) =
    .ok ⟨⟨[.init], 16384⟩, ⟨[], 16384⟩⟩
      (some (.bstr (ds.reverse.flatten ++ cs.flatten))) := by
  intro cs
  induction cs with
  | nil =>
    intro ds hb
    simp only [List.map_nil, List.nil_append, List.flatten_nil,
      List.append_nil]
    cases ds with
    | nil =>
      simpa using LR.runTokens_last_lr LR.consume_bstrX_brk_empty
    | cons d ds1 =>
      have hcons := LR.consume_bstr_brk_entry d ds1
        (by simp only [List.length_cons] at hb; omega)
      simp only [List.map_cons, List.cons_append]
      exact LR.runTokens_last_lr hcons
  | cons c cs1 ih =>
    intro ds hb
    obtain ⟨s, σ, hsσ, hact, hσlen⟩ :
        ∃ s σ, List.map LR.State.bstrXSeqBstr ds ++
            [LR.State.bstrXSeqOpen, LR.State.init] = s :: σ ∧
          LR.nextAction s (some (.bstr c)) =
            .act (.shift (.bstrXSeqBstr c)) ∧
          σ.length = ds.length + 1 := by
      cases ds with
      | nil => exact ⟨.bstrXSeqOpen, [.init], rfl, rfl, rfl⟩
      | cons d ds1 =>
        refine ⟨.bstrXSeqBstr d,
          List.map LR.State.bstrXSeqBstr ds1 ++
            [LR.State.bstrXSeqOpen, LR.State.init],
          by simp, rfl, by simp⟩
    simp only [List.map_cons, List.cons_append, hsσ]
    have hstep := LR.consume_bstr_shift s σ ⟨[], 16384⟩ c hact
      (by rw [hσlen]; simp only [List.length_cons] at hb; omega)
    rw [LR.runTokens_cons_lr hstep]
    have hrw : LR.State.bstrXSeqBstr c :: s :: σ =
        List.map LR.State.bstrXSeqBstr (c :: ds) ++
        [LR.State.bstrXSeqOpen, LR.State.init] := by
      rw [← hsσ, List.map_cons, List.cons_append]
    rw [hrw]
    refine (ih (c :: ds) ?_).trans ?_
    · simp only [List.length_cons] at hb ⊢
      omega
    simp only [List.reverse_cons, List.flatten_append, List.flatten_cons,
      List.flatten_nil, List.append_nil, List.append_assoc]

theorem LR.bstrTop_lr (cs : List (List Nat)) (hb : cs.length ≤ 16381) :
    LR.runTokens LR.Parser.cbor (.bstrX :: (cs.map Token.bstr ++ [.brk])) =
    .ok ⟨⟨[.init], 16384⟩, ⟨[], 16384⟩⟩ (some (.bstr cs.flatten)) := by
  rw [LR.runTokens_cons_lr LR.consume_cbor_bstrX_lr]
  refine (LR.bstrFeed cs [] (by simp only [List.length_nil]; omega)).trans
    ?_
  simp

theorem LR.consume_cbor_tstrX_lr :
    LR.Parser.cbor.consume .tstrX =
    .ok ⟨⟨[.tstrXSeqOpen, .init], 16384⟩, ⟨[], 16384⟩⟩ none := rfl

theorem LR.consume_tstr_shift (s : LR.State) (σ : List LR.State)
    (vs : LR.ValueStack) (c : List Nat)
    (hs : LR.nextAction s (some (.tstr c)) =
      .act (.shift (.tstrXSeqTstr c)))
    (hl : σ.length + 1 < 16384) :
    LR.Parser.consume ⟨⟨s :: σ, 16384⟩, vs⟩ (.tstr c) =
    .ok ⟨⟨.tstrXSeqTstr c :: s :: σ, 16384⟩, vs⟩ none := by
  simp only [LR.Parser.consume, List.length_cons]
  rw [show (4 * (σ.length + 1) + 16 : Nat) =
    4 * (σ.length + 1) + 14 + 1 + 1 from rfl]
  simp only [LR.doConsume, hs, LR.StateStack.push, List.length_cons, hl,
    if_true]
  rfl

theorem LR.step19 (g : Nat) (d d2 : List Nat) (ρ : List LR.State)
    (acc : List Nat) (hacc : utf8Valid acc = true)
    (hl : ρ.length + 1 < 16384) :
    LR.doConsume (g + 1)
      ⟨⟨.tstrXSeqMore :: .tstrXSeqTstr d :: .tstrXSeqTstr d2 :: ρ, 16384⟩,
        ⟨[.tstr acc], 16384⟩⟩ none =
    LR.doConsume g
      ⟨⟨.tstrXSeqMore :: .tstrXSeqTstr d2 :: ρ, 16384⟩,
        ⟨[.tstr (d ++ acc)], 16384⟩⟩ none := by
  simp only [LR.doConsume]
  simp only [LR.nextAction, LR.applyReduce, LR.reduce19,
    LR.ValueStack.tstrPrepend, Value.asTstr, hacc, if_true, LR.goto,
    LR.goto2, List.head?, LR.StateStack.push, List.length_cons, hl]

theorem LR.tstrCascade : ∀ (ds : List (List Nat)) (d acc : List Nat)
    (g : Nat), ds.length + 1 + 1 + 1 < 16384 → ds.length + 3 ≤ g →
    utf8Valid acc = true → utf8Valid d = true →
    (∀ x ∈ ds, utf8Valid x = true) →
    LR.doConsume (g + 1)
      ⟨⟨.tstrXSeqMore :: .tstrXSeqTstr d ::
          ds.map .tstrXSeqTstr ++ [.tstrXSeqOpen, .init], 16384⟩,
        ⟨[.tstr acc], 16384⟩⟩ none =
    .ok ⟨⟨[.init], 16384⟩, ⟨[], 16384⟩⟩
      (some (.tstr ((d :: ds).reverse.flatten ++ acc))) := by
  intro ds
  induction ds with
  | nil =>
    intro d acc g hb hg hacc hd hds
    obtain ⟨g1, rfl⟩ : ∃ g1, g = g1 + 1 + 1 + 1 := ⟨g - 3, by omega⟩
    simp only [List.map_nil, List.cons_append, List.nil_append,
      List.reverse_cons, List.reverse_nil, List.flatten_append,
      List.flatten_cons, List.flatten_nil, List.append_nil]
    simp only [LR.doConsume]
    simp only [LR.nextAction, LR.applyReduce, LR.reduce19,
      LR.ValueStack.tstrPrepend, Value.asTstr, hacc, if_true, LR.goto,
      LR.goto2, List.head?, LR.StateStack.push, List.length_cons,
      List.length_nil]
    rfl
  | cons d2 ds2 ih =>
    intro d acc g hb hg hacc hd hds
    obtain ⟨g1, rfl⟩ : ∃ g1, g = g1 + 1 := ⟨g - 1, by omega⟩
    simp only [List.map_cons, List.cons_append]
    have hstep := LR.step19 (g1 + 1) d d2
      (List.map LR.State.tstrXSeqTstr ds2 ++
        [LR.State.tstrXSeqOpen, LR.State.init]) acc hacc
      (by simp only [List.length_append, List.length_map,
        List.length_cons, List.length_nil]
          simp only [List.length_cons] at hb
          omega)
    rw [hstep]
    have hih := ih d2 (d ++ acc) g1
      (by simp only [List.length_cons] at hb; omega)
      (by simp only [List.length_cons] at hg; omega)
      (utf8Valid_append hd hacc)
      (hds d2 (by simp))
      (fun x hx => hds x (by simp [hx]))
    refine hih.trans ?_
    simp only [List.reverse_cons, List.flatten_append, List.flatten_cons,
      List.flatten_nil, List.append_nil, List.append_assoc]

theorem LR.consume_tstrX_brk_empty :
    LR.Parser.consume ⟨⟨[.tstrXSeqOpen, .init], 16384⟩, ⟨[], 16384⟩⟩ .brk =
    .ok ⟨⟨[.init], 16384⟩, ⟨[], 16384⟩⟩ (some (.tstr [])) := rfl

theorem LR.consume_tbrk_entry_gen (d : List Nat) (ρ : List LR.State)
    (R : POut LR.Parser) (hρ : ρ.length + 1 < 16384)
    (hcas : ∀ g, ρ.length + 3 ≤ g →
      LR.doConsume (g + 1)
        ⟨⟨.tstrXSeqMore :: .tstrXSeqTstr d :: ρ, 16384⟩,
          ⟨[.tstr []], 16384⟩⟩ none = R) :
    LR.Parser.consume ⟨⟨.tstrXSeqTstr d :: ρ, 16384⟩, ⟨[], 16384⟩⟩
      .brk = R := by
  have h00 : (0 : Nat) < 16384 := by norm_num
  simp only [LR.Parser.consume, List.length_cons]
  generalize hF : 4 * (ρ.length + 1) + 16 = F
  obtain ⟨f1, rfl⟩ : ∃ f1, F = f1 + 1 := ⟨F - 1, by omega⟩
  simp only [LR.doConsume]
  simp only [LR.nextAction, LR.startTstrX, LR.StateStack.push,
    List.length_cons, hρ, if_true]
  obtain ⟨f2, rfl⟩ : ∃ f2, f1 = f2 + 1 := ⟨f1 - 1, by omega⟩
  simp only [LR.doConsume]
  simp only [LR.nextAction, LR.applyReduce, LR.reduce18,
    LR.ValueStack.push, List.length_nil, h00, if_true, LR.goto,
    List.head?, LR.goto2, LR.StateStack.push, List.length_cons, hρ]
  obtain ⟨g, rfl⟩ : ∃ g, f2 = g + 1 := ⟨f2 - 1, by omega⟩
  exact hcas g (by omega)

theorem LR.consume_tstr_brk_entry (d : List Nat) (ds : List (List Nat))
    (hb : ds.length + 1 + 1 + 1 < 16384) (hd : utf8Valid d = true)
    (hds : ∀ x ∈ ds, utf8Valid x = true) :
    LR.Parser.consume
      ⟨⟨.tstrXSeqTstr d :: ds.map .tstrXSeqTstr ++
          [.tstrXSeqOpen, .init], 16384⟩, ⟨[], 16384⟩⟩ .brk =
    .ok ⟨⟨[.init], 16384⟩, ⟨[], 16384⟩⟩
      (some (.tstr ((d :: ds).reverse.flatten))) := by
  refine LR.consume_tbrk_entry_gen d _ _ ?_ ?_
  · simp only [List.append_eq, List.length_append, List.length_map,
      List.length_cons, List.length_nil]
    omega
  · intro g hg
    have hg2 : ds.length + 3 ≤ g := by
      simp only [List.append_eq, List.length_append, List.length_map,
        List.length_cons, List.length_nil] at hg
      omega
    refine (LR.tstrCascade ds d [] g hb hg2 (by decide) hd hds).trans ?_
    simp

theorem LR.tstrFeed : ∀ (cs ds : List (List Nat)),
    ds.length + cs.length + 2 < 16384 →
    (∀ x ∈ ds, utf8Valid x = true) → (∀ x ∈ cs, utf8Valid x = true) →
    LR.runTokens
      ⟨⟨ds.map .tstrXSeqTstr ++ [.tstrXSeqOpen, .init], 16384⟩,
        ⟨[], 16384⟩⟩
      (cs.map Token.tstr ++ [.brk]) =
    .ok ⟨⟨[.init], 16384⟩, ⟨[], 16384⟩⟩
      (some (.tstr (ds.reverse.flatten ++ cs.flatten))) := by
  intro cs
  induction cs with
  | nil =>
    intro ds hb hds hcs
    simp only [List.map_nil, List.nil_append, List.flatten_nil,
      List.append_nil]
    cases ds with
    | nil =>
      simpa using LR.runTokens_last_lr LR.consume_tstrX_brk_empty
    | cons d ds1 =>
      have hcons := LR.consume_tstr_brk_entry d ds1
        (by simp only [List.length_cons] at hb; omega)
        (hds d (by simp))
        (fun x hx => hds x (by simp [hx]))
      simp only [List.map_cons, List.cons_append]
      exact LR.runTokens_last_lr hcons
  | cons c cs1 ih =>
    intro ds hb hds hcs
    obtain ⟨s, σ, hsσ, hact, hσlen⟩ :
        ∃ s σ, List.map LR.State.tstrXSeqTstr ds ++
            [LR.State.tstrXSeqOpen, LR.State.init] = s :: σ ∧
          LR.nextAction s (some (.tstr c)) =
            .act (.shift (.tstrXSeqTstr c)) ∧
          σ.length = ds.length + 1 := by
      cases ds with
      | nil => exact ⟨.tstrXSeqOpen, [.init], rfl, rfl, rfl⟩
      | cons d ds1 =>
        refine ⟨.tstrXSeqTstr d,
          List.map LR.State.tstrXSeqTstr ds1 ++
            [LR.State.tstrXSeqOpen, LR.State.init],
          by simp, rfl, by simp⟩
    simp only [List.map_cons, List.cons_append, hsσ]
    have hstep := LR.consume_tstr_shift s σ ⟨[], 16384⟩ c hact
      (by rw [hσlen]; simp only [List.length_cons] at hb; omega)
    rw [LR.runTokens_cons_lr hstep]
    have hrw : LR.State.tstrXSeqTstr c :: s :: σ =
        List.map LR.State.tstrXSeqTstr (c :: ds) ++
        [LR.State.tstrXSeqOpen, LR.State.init] := by
      rw [← hsσ, List.map_cons, List.cons_append]
    rw [hrw]
    refine (ih (c :: ds) ?_ ?_ ?_).trans ?_
    · simp only [List.length_cons] at hb ⊢
      omega
    · intro y hy
      rcases List.mem_cons.mp hy with h | h
      · exact hcs y (by simp [h])
      · exact hds y h
    · exact fun x hx => hcs x (by simp [hx])
    · simp only [List.reverse_cons, List.flatten_append,
        List.flatten_cons, List.flatten_nil, List.append_nil,
        List.append_assoc]

theorem LR.tstrTop_lr (cs : List (List Nat)) (hb : cs.length ≤ 16381)
    (hcs : ∀ x ∈ cs, utf8Valid x = true) :
    LR.runTokens LR.Parser.cbor (.tstrX :: (cs.map Token.tstr ++ [.brk])) =
    .ok ⟨⟨[.init], 16384⟩, ⟨[], 16384⟩⟩ (some (.tstr cs.flatten)) := by
  rw [LR.runTokens_cons_lr LR.consume_cbor_tstrX_lr]
  refine (LR.tstrFeed cs [] (by simp only [List.length_nil]; omega)
    (by intro x hx; cases hx) hcs).trans ?_
  simp

/-- The full LL indefinite byte-string run from a fresh parser. -/
theorem LL.bstrTop (cs : List (List Nat)) :
    LL.runTokens LL.Parser.cbor (.bstrX :: (cs.map Token.bstr ++ [.brk])) =
    .ok ⟨⟨[], 16384⟩, []⟩ (some (.bstr cs.flatten)) := by
  rw [LL.runTokens_cons LL.consume_cbor_bstrX]
  simpa using LL.bstrLoop cs []

/-- The full LL indefinite text-string run with valid chunks. -/
theorem LL.tstrTop (cs : List (List Nat))
    (hcs : ∀ c ∈ cs, utf8Valid c = true) :
    LL.runTokens LL.Parser.cbor (.tstrX :: (cs.map Token.tstr ++ [.brk])) =
    .ok ⟨⟨[], 16384⟩, []⟩ (some (.tstr cs.flatten)) := by
  rw [LL.runTokens_cons LL.consume_cbor_tstrX]
  simpa using LL.tstrLoop cs [] (by decide) hcs

/-- The full LL indefinite text-string run with an invalid chunk
panics. -/
theorem LL.tstrPanicTop (pre : List (List Nat)) (bad : List Nat)
    (post : List (List Nat)) (hpre : ∀ c ∈ pre, utf8Valid c = true)
    (hbad : utf8Valid bad = false) :
    LL.runTokens LL.Parser.cbor
      (.tstrX :: ((pre ++ bad :: post).map Token.tstr ++ [.brk])) =
    .panic := by
  rw [LL.runTokens_cons LL.consume_cbor_tstrX]
  exact LL.tstrPanicLoop pre [] (by decide) hpre bad post hbad

/-- C4 (amended): for every indefinite-length byte string both parsers
produce the single `Bstr` holding the in-order concatenation of the
chunks (the LR parser within its state-stack budget of 16381 chunks);
for indefinite-length text strings the same holds when every chunk is
valid UTF-8; an invalid chunk makes the LL parser panic (through
`String::from_utf8(...).unwrap()` in `Value::as_tstr`).  Chunk
boundaries are not observable in any produced value. -/
theorem C4_chunk_concatenation :
    (∀ cs : List (List Nat),
      LL.runTokens LL.Parser.cbor
        (.bstrX :: (cs.map Token.bstr ++ [.brk])) =
      .ok ⟨⟨[], 16384⟩, []⟩ (some (.bstr cs.flatten))) ∧
    (∀ cs : List (List Nat), cs.length ≤ 16381 →
      LR.runTokens LR.Parser.cbor
        (.bstrX :: (cs.map Token.bstr ++ [.brk])) =
      .ok ⟨⟨[.init], 16384⟩, ⟨[], 16384⟩⟩ (some (.bstr cs.flatten))) ∧
    (∀ cs : List (List Nat), (∀ c ∈ cs, utf8Valid c = true) →
      LL.runTokens LL.Parser.cbor
        (.tstrX :: (cs.map Token.tstr ++ [.brk])) =
      .ok ⟨⟨[], 16384⟩, []⟩ (some (.tstr cs.flatten))) ∧
    (∀ cs : List (List Nat), cs.length ≤ 16381 →
      (∀ c ∈ cs, utf8Valid c = true) →
      LR.runTokens LR.Parser.cbor
        (.tstrX :: (cs.map Token.tstr ++ [.brk])) =
      .ok ⟨⟨[.init], 16384⟩, ⟨[], 16384⟩⟩ (some (.tstr cs.flatten))) ∧
    (∀ (pre : List (List Nat)) (bad : List Nat) (post : List (List Nat)),
      (∀ c ∈ pre, utf8Valid c = true) → utf8Valid bad = false →
      LL.runTokens LL.Parser.cbor
        (.tstrX :: ((pre ++ bad :: post).map Token.tstr ++ [.brk])) =
      .panic) :=
  ⟨LL.bstrTop, LR.bstrTop_lr, LL.tstrTop,
    fun cs hb hcs => LR.tstrTop_lr cs hb hcs, LL.tstrPanicTop⟩

/-- The C4 theorem at concrete two-chunk strings on both parsers. -/
theorem C4_chunk_concatenation_witness :
    LL.runTokens LL.Parser.cbor
      (.bstrX :: (List.map Token.bstr [[1], [2, 3]] ++ [.brk])) =
      .ok ⟨⟨[], 16384⟩, []⟩ (some (.bstr [1, 2, 3])) ∧
    LR.runTokens LR.Parser.cbor
      (.tstrX :: (List.map Token.tstr [[0x61], [0x62]] ++ [.brk])) =
      .ok ⟨⟨[.init], 16384⟩, ⟨[], 16384⟩⟩ (some (.tstr [0x61, 0x62])) := by
  refine ⟨?_, ?_⟩
  · simpa using C4_chunk_concatenation.1 [[1], [2, 3]]
  · simpa using C4_chunk_concatenation.2.2.2.1 [[0x61], [0x62]]
      (by norm_num) (by decide)

end Cbor
